import Mathlib

/-
Verification development for the Model reconciliation controller of the
ollama-operator repository (internal/controller/model_controller.go and the
pkg/model stage executors quoted alongside it).

The embedding is a shallow one: the Kubernetes resource store is an explicit
`Cluster` state (association lists keyed by namespaced name), the event
recorder is a trace of `Event` values, and every controller function becomes a
pure Lean function from the state to a result, a new state and the events it
emitted.  Store reads can yield a value, "not found" (absence from the list)
or a non-not-found store error (an `Entry.err` poisoned slot), matching the
three-way outcome of the Go client.  Ghost trace markers (call markers, write
attempts, readiness-return markers) record which operations ran; they carry no
data the Go code does not compute.
-/

namespace OllamaOp

/- A store slot: either a live object or a slot whose read fails with a
non-not-found error. Absence of the key models NotFound. -/
inductive Entry (α : Type) where
  | ok (a : α)
  | err
deriving DecidableEq

/- Result of a fallible controller operation: Go's `(value, error)` pair with
a non-nil error collapsed to `err`. -/
inductive Res (α : Type) where
  | ok (a : α)
  | err
deriving DecidableEq

/- Association-list lookup with propositional key equality. -/
def lookupK {κ α : Type} [DecidableEq κ] (k : κ) : List (κ × α) → Option α
  | [] => none
  | (k0, v) :: rest => if k0 = k then some v else lookupK k rest

/- Association-list insert-or-replace (replaces the first matching key). -/
def setK {κ α : Type} [DecidableEq κ] (k : κ) (v : α) : List (κ × α) → List (κ × α)
  | [] => [(k, v)]
  | (k0, v0) :: rest => if k0 = k then (k, v) :: rest else (k0, v0) :: setK k v rest

theorem lookupK_setK_self {κ α : Type} [DecidableEq κ] (k : κ) (v : α) (l : List (κ × α)) :
    lookupK k (setK k v l) = some v := by
  induction l with
  | nil => simp [setK, lookupK]
  | cons p rest ih =>
    obtain ⟨k0, v0⟩ := p
    by_cases h : k0 = k
    · simp [setK, h, lookupK]
    · simp [setK, h, lookupK, ih]

theorem lookupK_setK_ne {κ α : Type} [DecidableEq κ] {k k' : κ} (v : α) (l : List (κ × α))
    (h : k' ≠ k) : lookupK k' (setK k v l) = lookupK k' l := by
  induction l with
  | nil => simp [setK, lookupK, Ne.symm h]
  | cons p rest ih =>
    obtain ⟨k0, v0⟩ := p
    by_cases h0 : k0 = k
    · subst h0
      simp [setK, lookupK, Ne.symm h]
    · simp only [setK, if_neg h0, lookupK]
      by_cases h1 : k0 = k'
      · simp [h1]
      · simp [h1, ih]

/- Condition types carried on a Model's status (ollamav1.ModelProgressing,
ollamav1.ModelAvailable). -/
inductive ConditionType where
  | progressing
  | available
deriving DecidableEq, BEq

/- corev1.ConditionStatus values. -/
inductive ConditionStatus where
  | conditionTrue
  | conditionFalse
  | conditionUnknown
deriving DecidableEq

/- ollamav1.ModelStatusCondition; timestamps are abstract instants (the
`now` argument threaded through a pass stands for metav1.Now()). -/
structure ModelStatusCondition where
  type : ConditionType
  status : ConditionStatus
  lastUpdateTime : Nat
  lastTransitionTime : Nat
deriving DecidableEq

structure ModelSpec where
  image : String
  replicas : Option Int
  storageClassName : Option String
  persistentVolumeClaim : Option String
  persistentVolume : Option String
deriving DecidableEq

structure ModelStatus where
  conditions : List ModelStatusCondition
  replicas : Int
  readyReplicas : Int
  availableReplicas : Int
  unavailableReplicas : Int
deriving DecidableEq

/- ollamav1.Model; `ns` is the Go object's Namespace field. -/
structure Model where
  ns : String
  name : String
  apiVersion : String
  kind : String
  uid : String
  spec : ModelSpec
  status : ModelStatus
deriving DecidableEq

structure OwnerReference where
  apiVersion : String
  kind : String
  name : String
  uid : String
  blockOwnerDeletion : Bool
deriving DecidableEq

/- Opaque pod-template payloads (spec §1 non-goals: container shaping is out
of scope; the builders are injective constructors). -/
inductive Container where
  | ollamaPuller (image : String) (ns : String)
  | ollamaServer (expose : Bool)
deriving DecidableEq

/- Modelled from the spec: NewOllamaPullerContainer lives outside src/; per
§1 it is an opaque builder parameterized by image and namespace. -/
def NewOllamaPullerContainer (image : String) (ns : String) : Container :=
  .ollamaPuller image ns

/- Modelled from the spec: NewOllamaServerContainer lives outside src/; per
§1 it is an opaque builder. -/
def NewOllamaServerContainer (expose : Bool) : Container :=
  .ollamaServer expose

structure Volume where
  name : String
  claimName : String
  readOnly : Bool
deriving DecidableEq

/- appsv1.Deployment restricted to the fields the controller constructs or
reads. -/
structure Deployment where
  name : String
  ns : String
  uid : String
  ownerReferences : List OwnerReference
  specReplicas : Option Int
  selectorApp : String
  templateApp : String
  initContainers : List Container
  containers : List Container
  volumes : List Volume
  statusReplicas : Int
  statusReadyReplicas : Int
  statusAvailableReplicas : Int
  statusUnavailableReplicas : Int
deriving DecidableEq

structure ServicePort where
  name : String
  port : Int
  targetPort : Int
deriving DecidableEq

/- corev1.Service restricted to the fields the controller constructs or
reads; `clusterIP` is assigned by the platform after creation. -/
structure Service where
  name : String
  ns : String
  ownerReferences : List OwnerReference
  svcType : String
  selectorApp : String
  ports : List ServicePort
  clusterIP : String
deriving DecidableEq

/- Modelled from the spec: the image-store PVC (stage 3 of §4.1) lives
outside src/; only its construction parameters matter here. -/
structure PVC where
  ns : String
  storageClassName : Option String
  claimParams : Option String
  volumeParams : Option String
deriving DecidableEq

/- Modelled from the spec: the image-store stateful set (stage 4 of §4.1)
lives outside src/; readiness needs declared and observed ready replicas. -/
structure StatefulSet where
  ns : String
  specReplicas : Option Int
  statusReadyReplicas : Int
deriving DecidableEq

/- Modelled from the spec: the image-store service (stage 5 of §4.1) lives
outside src/; readiness needs the platform-assigned cluster IP. -/
structure ImageStoreService where
  ns : String
  ownerName : String
  clusterIP : String
deriving DecidableEq

/- One recorder notification or ghost trace marker per constructor. The
first twelve mirror modelRecorder.Eventf calls; the rest are ghost markers
recording that an operation ran (a status write was issued, a create call was
made, EnsureDeploymentCreated was invoked, an image-store readiness check
returned a given Boolean). -/
inductive Event where
  | modelProgressing
  | modelAvailable
  | deploymentCreated (name : String)
  | serviceCreated (name : String)
  | modelScaled (oldReplicas newReplicas : Int)
  | waitingForDeployment (name : String)
  | waitingForService (name : String)
  | imageStorePVCCreated (ns : String)
  | imageStoreStatefulSetCreated (ns : String)
  | imageStoreServiceCreated (ns : String)
  | waitingForImageStoreStatefulSet (ns : String)
  | waitingForImageStoreService (ns : String)
  | statusWriteAttempt
  | callEnsureDeploymentCreated
  | createDeploymentCall (ns : String) (name : String)
  | createServiceCall (ns : String) (name : String)
  | ssReadyReturned (ready : Bool)
  | storeSvcReadyReturned (ready : Bool)
deriving DecidableEq

/- The cluster store: one association list per managed kind. Workload
deployments and services are keyed by (namespace, object name); the
image-store singletons are keyed by namespace. -/
structure Cluster where
  models : List ((String × String) × Entry Model)
  deployments : List ((String × String) × Entry Deployment)
  services : List ((String × String) × Entry Service)
  imageStorePVCs : List (String × Entry PVC)
  imageStoreStatefulSets : List (String × Entry StatefulSet)
  imageStoreServices : List (String × Entry ImageStoreService)
deriving DecidableEq

/- Outcome of one reconcile pass: (ctrl.Result{}, err) is `errO`,
(ctrl.Result{}, nil) is `doneO`, and (Result{Requeue: true, RequeueAfter: d},
nil) is `requeueO d` with d in seconds. -/
inductive Outcome where
  | errO
  | doneO
  | requeueO (after : Nat)
deriving DecidableEq

/- pkg/model ModelAppName: fmt.Sprintf("ollama-model-%s", name). -/
def ModelAppName (name : String) : String :=
  "ollama-model-" ++ name

/- Modelled from the spec: the image-store PVC name is a fixed constant
(referenced in src/ as imageStorePVCName but defined outside src/); §6 fixes
only the "<fixed-prefix>-<name>" shape, and no claim depends on the value. -/
def imageStorePVCName : String :=
  "ollama-models-store-pvc"

/- Modelled from the spec (§6 updateStatusSubresource): conditional update of
the status sub-object through the external store client. The write is issued
unconditionally (ghost marker `statusWriteAttempt`); it fails when the stored
object is gone (a deleted object cannot be updated — the optimistic-
concurrency precondition of §6 no longer holds) or when the slot errors. -/
def statusUpdate (st : Cluster) (m : Model) : Res Unit × Cluster × List Event :=
  match lookupK (m.ns, m.name) st.models with
  | none => (.err, st, [.statusWriteAttempt])
  | some .err => (.err, st, [.statusWriteAttempt])
  | some (.ok _) =>
      (.ok (), { st with models := setK (m.ns, m.name) (.ok m) st.models },
        [.statusWriteAttempt])

/- The condition written by SetProgressing (Type ModelProgressing, Status
ConditionTrue, both timestamps metav1.Now()). -/
def progressingCondition (now : Nat) : ModelStatusCondition :=
  { type := .progressing, status := .conditionTrue,
    lastUpdateTime := now, lastTransitionTime := now }

/- The condition written by SetAvailable. -/
def availableCondition (now : Nat) : ModelStatusCondition :=
  { type := .available, status := .conditionTrue,
    lastUpdateTime := now, lastTransitionTime := now }

/- ModelReconciler.IsProgressing: len(lo.Filter(conditions, type ==
ModelProgressing)) > 0. -/
def IsProgressing (m : Model) : Bool :=
  decide (0 < (m.status.conditions.filter
    (fun item => item.type == ConditionType.progressing)).length)

/- ModelReconciler.IsAvailable: len(lo.Filter(conditions, type ==
ModelAvailable)) > 0. -/
def IsAvailable (m : Model) : Bool :=
  decide (0 < (m.status.conditions.filter
    (fun item => item.type == ConditionType.available)).length)

/- ModelReconciler.SetProgressing: no-op when a Progressing condition is
already present; otherwise REPLACES Status.Conditions with the singleton
Progressing condition and issues a status update. -/
def SetProgressing (st : Cluster) (m : Model) (now : Nat) :
    Res Bool × Cluster × List Event :=
  let hasProgressing := decide (0 < (m.status.conditions.filter
    (fun item => item.type == ConditionType.progressing)).length)
  if hasProgressing then (.ok false, st, [])
  else
    let m1 := { m with status :=
      { m.status with conditions := [progressingCondition now] } }
    match statusUpdate st m1 with
    | (.err, st1, ev) => (.err, st1, ev)
    | (.ok _, st1, ev) => (.ok true, st1, ev)

/- ModelReconciler.SetAvailable: no-op when an Available condition is already
present; otherwise REPLACES Status.Conditions with the singleton Available
condition and issues a status update. -/
def SetAvailable (st : Cluster) (m : Model) (now : Nat) :
    Res Bool × Cluster × List Event :=
  let hasAvailable := decide (0 < (m.status.conditions.filter
    (fun item => item.type == ConditionType.available)).length)
  if hasAvailable then (.ok false, st, [])
  else
    let m1 := { m with status :=
      { m.status with conditions := [availableCondition now] } }
    match statusUpdate st m1 with
    | (.err, st1, ev) => (.err, st1, ev)
    | (.ok _, st1, ev) => (.ok true, st1, ev)

/- ModelReconciler.ShouldSetReplicas: true when any of the four observed
counters differs from the stored status counters. -/
def ShouldSetReplicas (m : Model)
    (replicas readyReplicas availableReplicas unavailableReplicas : Int) : Bool :=
  decide (m.status.replicas ≠ replicas) ||
    decide (m.status.readyReplicas ≠ readyReplicas) ||
    decide (m.status.availableReplicas ≠ availableReplicas) ||
    decide (m.status.unavailableReplicas ≠ unavailableReplicas)

/- ModelReconciler.SetReplicas: stores the four counters on the status and
issues a status update unconditionally; returns true when the write
succeeds. -/
def SetReplicas (st : Cluster) (m : Model)
    (replicas readyReplicas availableReplicas unavailableReplicas : Int) :
    Res Bool × Cluster × List Event :=
  let m1 := { m with status := { m.status with
    replicas := replicas, readyReplicas := readyReplicas,
    availableReplicas := availableReplicas,
    unavailableReplicas := unavailableReplicas } }
  match statusUpdate st m1 with
  | (.err, st1, ev) => (.err, st1, ev)
  | (.ok _, st1, ev) => (.ok true, st1, ev)

/- pkg/model getDeployment: Get by (namespace, ModelAppName(name));
IsNotFound becomes (nil, nil), other errors propagate. -/
def getDeployment (st : Cluster) (ns : String) (name : String) :
    Res (Option Deployment) :=
  match lookupK (ns, ModelAppName name) st.deployments with
  | none => .ok none
  | some .err => .err
  | some (.ok d) => .ok (some d)

/- pkg/model EnsureDeploymentCreated: return the existing deployment
unchanged, or construct one (owner reference to the Model, replicas
defaulting to 1 when nil, puller init container, server container, read-only
image-store volume) and create it, emitting DeploymentCreated only on the
create path. The leading `callEnsureDeploymentCreated` is a ghost marker
recording the invocation. -/
def EnsureDeploymentCreated (st : Cluster) (ns : String) (name : String)
    (image : String) (replicas : Option Int) (m : Model) :
    Res Deployment × Cluster × List Event :=
  match getDeployment st ns name with
  | .err => (.err, st, [.callEnsureDeploymentCreated])
  | .ok (some d) => (.ok d, st, [.callEnsureDeploymentCreated])
  | .ok none =>
    let d : Deployment := {
      name := ModelAppName name
      ns := ns
      uid := ""
      ownerReferences := [{ apiVersion := m.apiVersion, kind := m.kind,
                            name := m.name, uid := m.uid,
                            blockOwnerDeletion := true }]
      specReplicas := match replicas with | none => some 1 | some r => some r
      selectorApp := ModelAppName name
      templateApp := ModelAppName name
      initContainers := [NewOllamaPullerContainer image ns]
      containers := [NewOllamaServerContainer true]
      volumes := [{ name := "image-storage", claimName := imageStorePVCName,
                    readOnly := true }]
      statusReplicas := 0
      statusReadyReplicas := 0
      statusAvailableReplicas := 0
      statusUnavailableReplicas := 0 }
    (.ok d,
      { st with deployments := setK (ns, ModelAppName name) (.ok d) st.deployments },
      [.callEnsureDeploymentCreated, .createDeploymentCall ns (ModelAppName name),
        .deploymentCreated (ModelAppName name)])

/- pkg/model IsDeploymentReady: absent deployment is not-ready (not an
error); otherwise ready iff Status.ReadyReplicas equals Spec.Replicas
defaulted to 1. -/
def IsDeploymentReady (st : Cluster) (ns : String) (name : String) :
    Res Bool × Cluster × List Event :=
  match getDeployment st ns name with
  | .err => (.err, st, [])
  | .ok none => (.ok false, st, [])
  | .ok (some d) =>
    let replica : Int := match d.specReplicas with | none => 1 | some r => r
    if d.statusReadyReplicas = replica then (.ok true, st, [])
    else (.ok false, st, [.waitingForDeployment d.name])

/- pkg/model UpdateDeployment: compare the live deployment's Spec.Replicas
with the Model spec's (default 1); when equal do nothing, otherwise write the
spec value back and emit ModelScaled (quoting the deployment's
Status.Replicas as the old value, as the Go code does). -/
def UpdateDeployment (st : Cluster) (m : Model) :
    Res Bool × Cluster × List Event :=
  match getDeployment st m.ns m.name with
  | .err => (.err, st, [])
  | .ok none => (.ok false, st, [])
  | .ok (some d) =>
    let replicas : Int := match m.spec.replicas with | none => 1 | some r => r
    match d.specReplicas with
    | some dr =>
      if dr = replicas then (.ok false, st, [])
      else
        let d1 := { d with specReplicas := some replicas }
        (.ok true,
          { st with deployments := setK (m.ns, ModelAppName m.name) (.ok d1) st.deployments },
          [.modelScaled d.statusReplicas replicas])
    | none =>
      let d1 := { d with specReplicas := some replicas }
      (.ok true,
        { st with deployments := setK (m.ns, ModelAppName m.name) (.ok d1) st.deployments },
        [.modelScaled d.statusReplicas replicas])

/- pkg/model getService: Get by (namespace, ModelAppName(name)); IsNotFound
becomes (nil, nil), other errors propagate. -/
def getService (st : Cluster) (ns : String) (name : String) :
    Res (Option Service) :=
  match lookupK (ns, ModelAppName name) st.services with
  | none => .ok none
  | some .err => .err
  | some (.ok s) => .ok (some s)

/- pkg/model EnsureServiceCreated: return the existing service unchanged, or
construct a ClusterIP service owned by the deployment and create it, emitting
ServiceCreated only on the create path. -/
def EnsureServiceCreated (st : Cluster) (ns : String) (name : String)
    (deployment : Deployment) : Res Service × Cluster × List Event :=
  match getService st ns name with
  | .err => (.err, st, [])
  | .ok (some s) => (.ok s, st, [])
  | .ok none =>
    let s : Service := {
      name := ModelAppName name
      ns := ns
      ownerReferences := [{ apiVersion := "apps/v1", kind := "Deployment",
                            name := deployment.name, uid := deployment.uid,
                            blockOwnerDeletion := true }]
      svcType := "ClusterIP"
      selectorApp := ModelAppName name
      ports := [{ name := "ollama", port := 11434, targetPort := 11434 }]
      clusterIP := "" }
    (.ok s,
      { st with services := setK (ns, ModelAppName name) (.ok s) st.services },
      [.createServiceCall ns (ModelAppName name),
        .serviceCreated (ModelAppName name)])

/- pkg/model IsServiceReady: absent service is not-ready (not an error);
otherwise ready iff the platform assigned a non-empty ClusterIP. -/
def IsServiceReady (st : Cluster) (ns : String) (name : String) :
    Res Bool × Cluster × List Event :=
  match getService st ns name with
  | .err => (.err, st, [])
  | .ok none => (.ok false, st, [])
  | .ok (some s) =>
    if s.clusterIP = "" then (.ok false, st, [.waitingForService s.name])
    else (.ok true, st, [])

/- Modelled from the spec: EnsureImageStorePVCCreated is outside src/; per
§4.2 it is create-if-absent keyed by namespace, parameterized by the Model
spec's storage fields, never mutating an existing claim, with a creation
notification only on the create path. -/
def EnsureImageStorePVCCreated (st : Cluster) (ns : String)
    (storageClass claimParams volumeParams : Option String) :
    Res PVC × Cluster × List Event :=
  match lookupK ns st.imageStorePVCs with
  | some .err => (.err, st, [])
  | some (.ok p) => (.ok p, st, [])
  | none =>
    let p : PVC := { ns := ns, storageClassName := storageClass,
                     claimParams := claimParams, volumeParams := volumeParams }
    (.ok p,
      { st with imageStorePVCs := setK ns (.ok p) st.imageStorePVCs },
      [.imageStorePVCCreated ns])

/- Modelled from the spec: EnsureImageStoreStatefulSetCreated is outside
src/; per §4.2 it is create-if-absent keyed by namespace (one declared
replica, zero observed ready replicas at creation), with a creation
notification only on the create path. -/
def EnsureImageStoreStatefulSetCreated (st : Cluster) (ns : String) :
    Res StatefulSet × Cluster × List Event :=
  match lookupK ns st.imageStoreStatefulSets with
  | some .err => (.err, st, [])
  | some (.ok s) => (.ok s, st, [])
  | none =>
    let s : StatefulSet := { ns := ns, specReplicas := some 1,
                             statusReadyReplicas := 0 }
    (.ok s,
      { st with imageStoreStatefulSets := setK ns (.ok s) st.imageStoreStatefulSets },
      [.imageStoreStatefulSetCreated ns])

/- Modelled from the spec: IsImageStoreStatefulSetReady is outside src/; per
§4.2 absence is not-ready (not an error) and a stateful workload is ready
when observed ready replicas equal declared replicas (default 1). The
`ssReadyReturned` ghost marker records the Boolean the call returned. -/
def IsImageStoreStatefulSetReady (st : Cluster) (ns : String) :
    Res Bool × Cluster × List Event :=
  match lookupK ns st.imageStoreStatefulSets with
  | some .err => (.err, st, [])
  | none => (.ok false, st, [.ssReadyReturned false])
  | some (.ok s) =>
    let replica : Int := match s.specReplicas with | none => 1 | some r => r
    if s.statusReadyReplicas = replica then (.ok true, st, [.ssReadyReturned true])
    else (.ok false, st, [.ssReadyReturned false,
      .waitingForImageStoreStatefulSet ns])

/- Modelled from the spec: EnsureImageStoreServiceCreated is outside src/;
per §4.2 it is create-if-absent keyed by namespace, owned by the stateful
set, created without a cluster IP (the platform assigns one later), with a
creation notification only on the create path. -/
def EnsureImageStoreServiceCreated (st : Cluster) (ns : String)
    (owner : StatefulSet) : Res ImageStoreService × Cluster × List Event :=
  match lookupK ns st.imageStoreServices with
  | some .err => (.err, st, [])
  | some (.ok s) => (.ok s, st, [])
  | none =>
    let s : ImageStoreService := { ns := ns, ownerName := owner.ns,
                                   clusterIP := "" }
    (.ok s,
      { st with imageStoreServices := setK ns (.ok s) st.imageStoreServices },
      [.imageStoreServiceCreated ns])

/- Modelled from the spec: IsImageStoreServiceReady is outside src/; per
§4.2 absence is not-ready (not an error) and a network endpoint is ready when
the platform has assigned it an internal address. The `storeSvcReadyReturned`
ghost marker records the Boolean the call returned. -/
def IsImageStoreServiceReady (st : Cluster) (ns : String) :
    Res Bool × Cluster × List Event :=
  match lookupK ns st.imageStoreServices with
  | some .err => (.err, st, [])
  | none => (.ok false, st, [.storeSvcReadyReturned false])
  | some (.ok s) =>
    if s.clusterIP = "" then (.ok false, st, [.storeSvcReadyReturned false,
      .waitingForImageStoreService ns])
    else (.ok true, st, [.storeSvcReadyReturned true])

/- What a stage step tells the surrounding Reconcile body: abort with an
error, short-circuit into a requeue, or fall through to the next step. -/
inductive StepOut where
  | errOut
  | requeueOut
  | continueOut
deriving DecidableEq

/- Reconcile lines 151-159: the counter-update step. The ShouldSetReplicas
guard decides whether SetReplicas (and hence a status write) runs at all;
when SetReplicas reports a completed write the pass requeues. -/
def counterStep (st : Cluster) (m : Model)
    (replicas readyReplicas availableReplicas unavailableReplicas : Int) :
    StepOut × Cluster × List Event :=
  if ShouldSetReplicas m replicas readyReplicas availableReplicas unavailableReplicas then
    match SetReplicas st m replicas readyReplicas availableReplicas unavailableReplicas with
    | (.err, st1, ev) => (.errOut, st1, ev)
    | (.ok hasSet, st1, ev) =>
      if hasSet then (.requeueOut, st1, ev) else (.continueOut, st1, ev)
  else (.continueOut, st, [])

/- Reconcile lines 117-168: the workload stage. Ensure the deployment,
correct replica drift (update-then-requeue), gate on deployment readiness,
ensure the workload service, gate on its readiness, update the status
counters, then mark the Model Available and emit the availability event. -/
def deployStage (st : Cluster) (m : Model) (ns : String) (n : String)
    (now : Nat) : Outcome × Cluster × List Event :=
  match EnsureDeploymentCreated st ns n m.spec.image m.spec.replicas m with
  | (.err, st1, ev1) => (.errO, st1, ev1)
  | (.ok deployment, st1, ev1) =>
  match UpdateDeployment st1 m with
  | (.err, st2, ev2) => (.errO, st2, ev1 ++ ev2)
  | (.ok modelDeploymentUpdated, st2, ev2) =>
  if modelDeploymentUpdated then (.requeueO 5, st2, ev1 ++ ev2)
  else
  match IsDeploymentReady st2 ns n with
  | (.err, st3, ev3) => (.errO, st3, ev1 ++ ev2 ++ ev3)
  | (.ok modelDeploymentReady, st3, ev3) =>
  if !modelDeploymentReady then (.requeueO 5, st3, ev1 ++ ev2 ++ ev3)
  else
  match EnsureServiceCreated st3 ns n deployment with
  | (.err, st4, ev4) => (.errO, st4, ev1 ++ ev2 ++ ev3 ++ ev4)
  | (.ok _, st4, ev4) =>
  match IsServiceReady st4 ns n with
  | (.err, st5, ev5) => (.errO, st5, ev1 ++ ev2 ++ ev3 ++ ev4 ++ ev5)
  | (.ok modelServiceReady, st5, ev5) =>
  if !modelServiceReady then (.requeueO 5, st5, ev1 ++ ev2 ++ ev3 ++ ev4 ++ ev5)
  else
  match counterStep st5 m deployment.statusReplicas deployment.statusReadyReplicas
      deployment.statusAvailableReplicas deployment.statusUnavailableReplicas with
  | (.errOut, st6, ev6) => (.errO, st6, ev1 ++ ev2 ++ ev3 ++ ev4 ++ ev5 ++ ev6)
  | (.requeueOut, st6, ev6) => (.requeueO 5, st6, ev1 ++ ev2 ++ ev3 ++ ev4 ++ ev5 ++ ev6)
  | (.continueOut, st6, ev6) =>
  match SetAvailable st6 m now with
  | (.err, st7, ev7) => (.errO, st7, ev1 ++ ev2 ++ ev3 ++ ev4 ++ ev5 ++ ev6 ++ ev7)
  | (.ok _, st7, ev7) =>
      (.doneO, st7, ev1 ++ ev2 ++ ev3 ++ ev4 ++ ev5 ++ ev6 ++ ev7 ++ [.modelAvailable])

/- Reconcile lines 82-168: the image-store stages (PVC, stateful set and its
readiness gate, image-store service and its readiness gate) followed by the
workload stage. Each not-ready gate short-circuits into a 5-second requeue
before the workload deployment is ever touched. -/
def reconcileStages (st : Cluster) (m : Model) (ns : String) (n : String)
    (now : Nat) : Outcome × Cluster × List Event :=
  match EnsureImageStorePVCCreated st ns m.spec.storageClassName
      m.spec.persistentVolumeClaim m.spec.persistentVolume with
  | (.err, st1, ev1) => (.errO, st1, ev1)
  | (.ok _, st1, ev1) =>
  match EnsureImageStoreStatefulSetCreated st1 ns with
  | (.err, st2, ev2) => (.errO, st2, ev1 ++ ev2)
  | (.ok statefulSet, st2, ev2) =>
  match IsImageStoreStatefulSetReady st2 ns with
  | (.err, st3, ev3) => (.errO, st3, ev1 ++ ev2 ++ ev3)
  | (.ok statefulSetReady, st3, ev3) =>
  if !statefulSetReady then (.requeueO 5, st3, ev1 ++ ev2 ++ ev3)
  else
  match EnsureImageStoreServiceCreated st3 ns statefulSet with
  | (.err, st4, ev4) => (.errO, st4, ev1 ++ ev2 ++ ev3 ++ ev4)
  | (.ok _, st4, ev4) =>
  match IsImageStoreServiceReady st4 ns with
  | (.err, st5, ev5) => (.errO, st5, ev1 ++ ev2 ++ ev3 ++ ev4 ++ ev5)
  | (.ok serviceReady, st5, ev5) =>
  if !serviceReady then (.requeueO 5, st5, ev1 ++ ev2 ++ ev3 ++ ev4 ++ ev5)
  else
  match deployStage st5 m ns n now with
  | (o, st6, ev6) => (o, st6, ev1 ++ ev2 ++ ev3 ++ ev4 ++ ev5 ++ ev6)

/- Reconcile lines 69-168: everything after the owning Model has been
fetched. `m` is the local copy obtained by the fetch; the store `st` may have
moved on (in particular the Model's own entry may have been deleted in the
meantime). Implements the progressing gate (lines 71-80) and then the staged
pipeline. -/
def reconcileFetched (st : Cluster) (m : Model) (ns : String) (n : String)
    (now : Nat) : Outcome × Cluster × List Event :=
  if !IsAvailable m then
    match SetProgressing st m now with
    | (.err, st1, ev1) => (.errO, st1, ev1)
    | (.ok hasSet, st1, ev1) =>
      if hasSet then (.requeueO 1, st1, ev1 ++ [.modelProgressing])
      else
        match reconcileStages st1 m ns n now with
        | (o, st2, ev2) => (o, st2, ev1 ++ ev2)
  else reconcileStages st m ns n now

/- ModelReconciler.Reconcile (lines 61-169): fetch the owning Model by the
request's namespaced name; NotFound is swallowed (client.IgnoreNotFound) and
the pass succeeds as a no-op; any other fetch error aborts the pass. -/
def Reconcile (st : Cluster) (ns : String) (n : String) (now : Nat) :
    Outcome × Cluster × List Event :=
  match lookupK (ns, n) st.models with
  | none => (.doneO, st, [])
  | some .err => (.errO, st, [])
  | some (.ok m) => reconcileFetched st m ns n now

/- The effective replica count of an optional int32 replica field, defaulted
to 1 when unset (the `replica := 1; if ptr != nil ...` idiom). -/
def effectiveReplicas (r : Option Int) : Int :=
  match r with
  | none => 1
  | some v => v

theorem statusUpdate_ok {st : Cluster} {m1 : Model} {st1 : Cluster}
    {ev : List Event} (h : statusUpdate st m1 = (.ok (), st1, ev)) :
    lookupK (m1.ns, m1.name) st1.models = some (.ok m1) := by
  unfold statusUpdate at h
  split at h <;> simp_all
  obtain ⟨h1, h2⟩ := h
  rw [← h1]
  simp [lookupK_setK_self]

theorem lookupK_statusUpdate_models (st : Cluster) (m1 : Model)
    (k : String × String) (m2 : Model)
    (h : lookupK k (statusUpdate st m1).2.1.models = some (.ok m2)) :
    lookupK k st.models = some (.ok m2) ∨ m2 = m1 := by
  unfold statusUpdate at h
  split at h
  · exact .inl h
  · exact .inl h
  · by_cases hk : k = (m1.ns, m1.name)
    · subst hk
      simp only [lookupK_setK_self] at h
      exact .inr (by injection h with h1; injection h1 with h2; exact h2.symm)
    · simp only at h
      rw [lookupK_setK_ne _ _ hk] at h
      exact .inl h

/- The Model with its conditions list replaced (proof-side abbreviation for
the record update the Set functions perform). -/
def setConds (m : Model) (cs : List ModelStatusCondition) : Model :=
  { m with status := { m.status with conditions := cs } }

/- The Model with its four status counters replaced (proof-side abbreviation
for the record update SetReplicas performs). -/
def setCounters (m : Model) (r1 r2 r3 r4 : Int) : Model :=
  { m with status :=
      { m.status with
        replicas := r1
        readyReplicas := r2
        availableReplicas := r3
        unavailableReplicas := r4 } }

theorem SetProgressing_eq (st : Cluster) (m : Model) (now : Nat) :
    SetProgressing st m now =
      if IsProgressing m then (.ok false, st, [])
      else
        match statusUpdate st (setConds m [progressingCondition now]) with
        | (.err, st1, ev) => (.err, st1, ev)
        | (.ok _, st1, ev) => (.ok true, st1, ev) := rfl

theorem SetAvailable_eq (st : Cluster) (m : Model) (now : Nat) :
    SetAvailable st m now =
      if IsAvailable m then (.ok false, st, [])
      else
        match statusUpdate st (setConds m [availableCondition now]) with
        | (.err, st1, ev) => (.err, st1, ev)
        | (.ok _, st1, ev) => (.ok true, st1, ev) := rfl

theorem SetReplicas_eq (st : Cluster) (m : Model) (r1 r2 r3 r4 : Int) :
    SetReplicas st m r1 r2 r3 r4 =
      match statusUpdate st (setCounters m r1 r2 r3 r4) with
      | (.err, st1, ev) => (.err, st1, ev)
      | (.ok _, st1, ev) => (.ok true, st1, ev) := rfl

theorem lookupK_SetProgressing_models (st : Cluster) (m : Model) (now : Nat)
    (k : String × String) (m2 : Model)
    (h : lookupK k (SetProgressing st m now).2.1.models = some (.ok m2)) :
    lookupK k st.models = some (.ok m2) ∨
      m2.status.conditions = [progressingCondition now] := by
  rw [SetProgressing_eq] at h
  split at h
  · exact .inl h
  · rcases h3 : statusUpdate st (setConds m [progressingCondition now]) with ⟨r, stx, evx⟩
    rw [h3] at h
    have h2 : lookupK k stx.models = some (.ok m2) := by
      cases r <;> simpa using h
    rcases lookupK_statusUpdate_models st _ k m2 (by rw [h3]; exact h2) with h4 | h4
    · exact .inl h4
    · subst h4
      exact .inr rfl

theorem lookupK_SetAvailable_models (st : Cluster) (m : Model) (now : Nat)
    (k : String × String) (m2 : Model)
    (h : lookupK k (SetAvailable st m now).2.1.models = some (.ok m2)) :
    lookupK k st.models = some (.ok m2) ∨
      (IsAvailable m = false ∧
        m2.status.conditions = [availableCondition now]) := by
  rw [SetAvailable_eq] at h
  split at h
  · exact .inl h
  · next hna =>
    rcases h3 : statusUpdate st (setConds m [availableCondition now]) with ⟨r, stx, evx⟩
    rw [h3] at h
    have h2 : lookupK k stx.models = some (.ok m2) := by
      cases r <;> simpa using h
    rcases lookupK_statusUpdate_models st _ k m2 (by rw [h3]; exact h2) with h4 | h4
    · exact .inl h4
    · subst h4
      exact .inr ⟨by simpa using hna, rfl⟩

theorem lookupK_SetReplicas_models (st : Cluster) (m : Model)
    (r1 r2 r3 r4 : Int) (k : String × String) (m2 : Model)
    (h : lookupK k (SetReplicas st m r1 r2 r3 r4).2.1.models = some (.ok m2)) :
    lookupK k st.models = some (.ok m2) ∨
      m2.status.conditions = m.status.conditions := by
  rw [SetReplicas_eq] at h
  rcases h3 : statusUpdate st (setCounters m r1 r2 r3 r4) with ⟨r, stx, evx⟩
  rw [h3] at h
  have h2 : lookupK k stx.models = some (.ok m2) := by
    cases r <;> simpa using h
  rcases lookupK_statusUpdate_models st _ k m2 (by rw [h3]; exact h2) with h4 | h4
  · exact .inl h4
  · subst h4
    exact .inr rfl

theorem lookupK_counterStep_models (st : Cluster) (m : Model)
    (r1 r2 r3 r4 : Int) (k : String × String) (m2 : Model)
    (h : lookupK k (counterStep st m r1 r2 r3 r4).2.1.models = some (.ok m2)) :
    lookupK k st.models = some (.ok m2) ∨
      m2.status.conditions = m.status.conditions := by
  unfold counterStep at h
  split at h
  · have h2 : lookupK k (SetReplicas st m r1 r2 r3 r4).2.1.models = some (.ok m2) := by
      rcases h3 : SetReplicas st m r1 r2 r3 r4 with ⟨r, stx, evx⟩
      rw [h3] at h
      cases r with
      | err => simpa using h
      | ok b => cases b <;> simp_all
    exact lookupK_SetReplicas_models _ _ _ _ _ _ _ _ h2
  · exact .inl h

theorem models_EnsureDeploymentCreated (st : Cluster) (ns n image : String)
    (repl : Option Int) (m : Model) :
    ((EnsureDeploymentCreated st ns n image repl m).2.1).models = st.models := by
  unfold EnsureDeploymentCreated
  split <;> rfl

theorem models_UpdateDeployment (st : Cluster) (m : Model) :
    ((UpdateDeployment st m).2.1).models = st.models := by
  unfold UpdateDeployment
  dsimp only
  repeat' split
  all_goals rfl

theorem state_IsDeploymentReady (st : Cluster) (ns n : String) :
    (IsDeploymentReady st ns n).2.1 = st := by
  unfold IsDeploymentReady
  dsimp only
  repeat' split
  all_goals rfl

theorem models_EnsureServiceCreated (st : Cluster) (ns n : String)
    (dep : Deployment) :
    ((EnsureServiceCreated st ns n dep).2.1).models = st.models := by
  unfold EnsureServiceCreated
  split <;> rfl

theorem state_IsServiceReady (st : Cluster) (ns n : String) :
    (IsServiceReady st ns n).2.1 = st := by
  unfold IsServiceReady
  split
  · rfl
  · rfl
  · split <;> rfl

theorem models_EnsureImageStorePVCCreated (st : Cluster) (ns : String)
    (a b c : Option String) :
    ((EnsureImageStorePVCCreated st ns a b c).2.1).models = st.models := by
  unfold EnsureImageStorePVCCreated
  split <;> rfl

theorem models_EnsureImageStoreStatefulSetCreated (st : Cluster) (ns : String) :
    ((EnsureImageStoreStatefulSetCreated st ns).2.1).models = st.models := by
  unfold EnsureImageStoreStatefulSetCreated
  split <;> rfl

theorem state_IsImageStoreStatefulSetReady (st : Cluster) (ns : String) :
    (IsImageStoreStatefulSetReady st ns).2.1 = st := by
  unfold IsImageStoreStatefulSetReady
  dsimp only
  repeat' split
  all_goals rfl

theorem models_EnsureImageStoreServiceCreated (st : Cluster) (ns : String)
    (owner : StatefulSet) :
    ((EnsureImageStoreServiceCreated st ns owner).2.1).models = st.models := by
  unfold EnsureImageStoreServiceCreated
  split <;> rfl

theorem state_IsImageStoreServiceReady (st : Cluster) (ns : String) :
    (IsImageStoreServiceReady st ns).2.1 = st := by
  unfold IsImageStoreServiceReady
  split
  · rfl
  · rfl
  · split <;> rfl

theorem statusUpdate_events (st : Cluster) (m1 : Model) :
    (statusUpdate st m1).2.2 = [Event.statusWriteAttempt] := by
  unfold statusUpdate
  split <;> rfl

theorem statusUpdate_found (st : Cluster) (m1 : Model) (mo : Model)
    (h : lookupK (m1.ns, m1.name) st.models = some (.ok mo)) :
    (statusUpdate st m1).1 = .ok () := by
  unfold statusUpdate
  rw [h]

theorem SetReplicas_events (st : Cluster) (m : Model) (r1 r2 r3 r4 : Int) :
    (SetReplicas st m r1 r2 r3 r4).2.2 = [Event.statusWriteAttempt] := by
  rw [SetReplicas_eq]
  rcases h3 : statusUpdate st (setCounters m r1 r2 r3 r4) with ⟨r, stx, evx⟩
  have hev := statusUpdate_events st (setCounters m r1 r2 r3 r4)
  rw [h3] at hev
  cases r <;> simpa using hev

/- Concrete fixtures used by witnesses and counterexamples below. -/
def emptyCluster : Cluster :=
  { models := [], deployments := [], services := [], imageStorePVCs := [],
    imageStoreStatefulSets := [], imageStoreServices := [] }

def sampleModel : Model :=
  { ns := "d", name := "x", apiVersion := "ollama.ayaka.io/v1", kind := "Model",
    uid := "u1",
    spec := { image := "img", replicas := none, storageClassName := none,
              persistentVolumeClaim := none, persistentVolume := none },
    status := { conditions := [], replicas := 1, readyReplicas := 1,
                availableReplicas := 1, unavailableReplicas := 0 } }

def sampleDeployment : Deployment :=
  { name := ModelAppName "x", ns := "d", uid := "du",
    ownerReferences := [], specReplicas := some 1,
    selectorApp := ModelAppName "x", templateApp := ModelAppName "x",
    initContainers := [], containers := [], volumes := [],
    statusReplicas := 1, statusReadyReplicas := 1, statusAvailableReplicas := 1,
    statusUnavailableReplicas := 0 }

def sampleService : Service :=
  { name := ModelAppName "x", ns := "d", ownerReferences := [],
    svcType := "ClusterIP", selectorApp := ModelAppName "x", ports := [],
    clusterIP := "10.0.0.2" }

def samplePVC : PVC :=
  { ns := "d", storageClassName := none, claimParams := none,
    volumeParams := none }

def sampleStatefulSet : StatefulSet :=
  { ns := "d", specReplicas := some 1, statusReadyReplicas := 1 }

def sampleImageStoreService : ImageStoreService :=
  { ns := "d", ownerName := "d", clusterIP := "10.0.0.1" }

/- A cluster in which every stage of the pipeline for Model "x" in namespace
"d" is present and ready, and the stored counters match the deployment. -/
def sampleCluster : Cluster :=
  { models := [(("d", "x"), .ok sampleModel)],
    deployments := [(("d", ModelAppName "x"), .ok sampleDeployment)],
    services := [(("d", ModelAppName "x"), .ok sampleService)],
    imageStorePVCs := [("d", .ok samplePVC)],
    imageStoreStatefulSets := [("d", .ok sampleStatefulSet)],
    imageStoreServices := [("d", .ok sampleImageStoreService)] }

/-- C7: the isReady operations (IsDeploymentReady, IsServiceReady) report an
absent sub-resource as not-ready rather than as an error: when the underlying
get returns not-found they return (false, nil) and leave the state untouched,
and they return a non-nil error exactly when the store get fails with an
error other than not-found. -/
theorem C7_isReady_absence_not_error :
    (∀ st ns n, lookupK (ns, ModelAppName n) st.deployments = none →
      IsDeploymentReady st ns n = (.ok false, st, [])) ∧
    (∀ st ns n, (IsDeploymentReady st ns n).1 = .err ↔
      lookupK (ns, ModelAppName n) st.deployments = some .err) ∧
    (∀ st ns n, lookupK (ns, ModelAppName n) st.services = none →
      IsServiceReady st ns n = (.ok false, st, [])) ∧
    (∀ st ns n, (IsServiceReady st ns n).1 = .err ↔
      lookupK (ns, ModelAppName n) st.services = some .err) := by
  refine ⟨fun st ns n h => ?_, fun st ns n => ?_, fun st ns n h => ?_,
    fun st ns n => ?_⟩
  · simp [IsDeploymentReady, getDeployment, h]
  · cases hl : lookupK (ns, ModelAppName n) st.deployments with
    | none => simp [IsDeploymentReady, getDeployment, hl]
    | some e =>
      cases e with
      | err => simp [IsDeploymentReady, getDeployment, hl]
      | ok d =>
        have hne : (IsDeploymentReady st ns n).1 ≠ .err := by
          unfold IsDeploymentReady getDeployment
          rw [hl]
          dsimp only
          split <;> simp
        constructor
        · intro he
          exact absurd he hne
        · intro hco
          exact absurd hco (by simp)
  · simp [IsServiceReady, getService, h]
  · cases hl : lookupK (ns, ModelAppName n) st.services with
    | none => simp [IsServiceReady, getService, hl]
    | some e =>
      cases e with
      | err => simp [IsServiceReady, getService, hl]
      | ok s =>
        have hne : (IsServiceReady st ns n).1 ≠ .err := by
          unfold IsServiceReady getService
          rw [hl]
          dsimp only
          split <;> simp
        constructor
        · intro he
          exact absurd he hne
        · intro hco
          exact absurd hco (by simp)

theorem C7_isReady_absence_not_error_witness :
    IsDeploymentReady emptyCluster "d" "x" = (.ok false, emptyCluster, []) ∧
    IsServiceReady emptyCluster "d" "x" = (.ok false, emptyCluster, []) :=
  ⟨C7_isReady_absence_not_error.1 emptyCluster "d" "x" rfl,
   C7_isReady_absence_not_error.2.2.1 emptyCluster "d" "x" rfl⟩

/-- C8: for an existing deployment, IsDeploymentReady returns true iff the
observed ready-replica count equals the declared replica count (defaulting
the declared count to 1 when unset); for an existing service, IsServiceReady
returns true iff the platform has assigned a non-empty ClusterIP. -/
theorem C8_readiness_predicates :
    (∀ st ns n d, lookupK (ns, ModelAppName n) st.deployments = some (.ok d) →
      ((IsDeploymentReady st ns n).1 = .ok true ↔
        d.statusReadyReplicas = effectiveReplicas d.specReplicas)) ∧
    (∀ st ns n s, lookupK (ns, ModelAppName n) st.services = some (.ok s) →
      ((IsServiceReady st ns n).1 = .ok true ↔ s.clusterIP ≠ "")) := by
  constructor
  · intro st ns n d h
    unfold IsDeploymentReady getDeployment effectiveReplicas
    rw [h]
    dsimp only
    split
    · next hc => simp [hc]
    · next hc => simp [hc]
  · intro st ns n s h
    unfold IsServiceReady getService
    rw [h]
    dsimp only
    split
    · next hc => simp [hc]
    · next hc => simp [hc]

theorem C8_readiness_predicates_witness :
    ((IsDeploymentReady sampleCluster "d" "x").1 = .ok true) ∧
    ((IsServiceReady sampleCluster "d" "x").1 = .ok true) :=
  ⟨(C8_readiness_predicates.1 sampleCluster "d" "x" sampleDeployment rfl).mpr
    (by decide),
   (C8_readiness_predicates.2 sampleCluster "d" "x" sampleService rfl).mpr
    (by decide)⟩

/-- C9: every successful status write through SetProgressing or SetAvailable
replaces the Model's entire conditions list with the one-element list holding
only the condition being set; after SetAvailable succeeds the stored
conditions list is exactly the singleton Available condition and no
Progressing condition remains. -/
theorem C9_set_condition_replaces_list :
    (∀ st m now st1 ev, SetProgressing st m now = (.ok true, st1, ev) →
      lookupK (m.ns, m.name) st1.models =
        some (.ok (setConds m [progressingCondition now]))) ∧
    (∀ st m now st1 ev, SetAvailable st m now = (.ok true, st1, ev) →
      lookupK (m.ns, m.name) st1.models =
        some (.ok (setConds m [availableCondition now])) ∧
      (∀ m', lookupK (m.ns, m.name) st1.models = some (.ok m') →
        m'.status.conditions = [availableCondition now] ∧
          IsProgressing m' = false)) := by
  constructor
  · intro st m now st1 ev h
    rw [SetProgressing_eq] at h
    split at h
    · simp at h
    · rcases h3 : statusUpdate st (setConds m [progressingCondition now]) with ⟨r, stx, evx⟩
      rw [h3] at h
      cases r with
      | err => simp at h
      | ok u =>
        cases u
        have hlift := statusUpdate_ok h3
        have hst : st1 = stx := by
          simpa using congrArg (fun p => p.2.1) h.symm
        rw [hst]
        exact hlift
  · intro st m now st1 ev h
    rw [SetAvailable_eq] at h
    split at h
    · simp at h
    · rcases h3 : statusUpdate st (setConds m [availableCondition now]) with ⟨r, stx, evx⟩
      rw [h3] at h
      cases r with
      | err => simp at h
      | ok u =>
        cases u
        have hlift := statusUpdate_ok h3
        have hst : st1 = stx := by
          simpa using congrArg (fun p => p.2.1) h.symm
        rw [hst]
        have hlift2 : lookupK (m.ns, m.name) stx.models =
            some (.ok (setConds m [availableCondition now])) := hlift
        refine ⟨hlift2, fun m' hm' => ?_⟩
        have hcomb := hlift2.symm.trans hm'
        have : m' = setConds m [availableCondition now] := by
          injection hcomb with h1
          injection h1 with h2
          exact h2.symm
        subst this
        exact ⟨rfl, rfl⟩

theorem C9_set_condition_replaces_list_witness :
    lookupK ("d", "x") (SetProgressing sampleCluster sampleModel 0).2.1.models =
      some (.ok (setConds sampleModel [progressingCondition 0])) :=
  C9_set_condition_replaces_list.1 sampleCluster sampleModel 0
    (SetProgressing sampleCluster sampleModel 0).2.1
    (SetProgressing sampleCluster sampleModel 0).2.2 (by decide)

/-- C10: SetReplicas performs no comparison against the stored counters: it
always issues a status write (the write-attempt marker is always emitted,
including for a quadruple identical to the stored one), returns true whenever
the write succeeds, and the suppression comparison lives only in the separate
ShouldSetReplicas guard (which is false on the stored quadruple itself). -/
theorem C10_SetReplicas_unconditional (st : Cluster) (m : Model)
    (r1 r2 r3 r4 : Int) :
    Event.statusWriteAttempt ∈ (SetReplicas st m r1 r2 r3 r4).2.2 ∧
    (∀ mo, lookupK (m.ns, m.name) st.models = some (.ok mo) →
      (SetReplicas st m r1 r2 r3 r4).1 = .ok true) ∧
    ShouldSetReplicas m m.status.replicas m.status.readyReplicas
      m.status.availableReplicas m.status.unavailableReplicas = false := by
  refine ⟨?_, fun mo hmo => ?_, ?_⟩
  · rw [SetReplicas_events]
    simp
  · rw [SetReplicas_eq]
    rcases h3 : statusUpdate st (setCounters m r1 r2 r3 r4) with ⟨r, stx, evx⟩
    have hr := statusUpdate_found st (setCounters m r1 r2 r3 r4) mo hmo
    rw [h3] at hr
    simp only at hr
    subst hr
    simp
  · simp [ShouldSetReplicas]

theorem C10_SetReplicas_unconditional_witness :
    Event.statusWriteAttempt ∈ (SetReplicas sampleCluster sampleModel 1 1 1 0).2.2 ∧
    (SetReplicas sampleCluster sampleModel 1 1 1 0).1 = .ok true :=
  ⟨(C10_SetReplicas_unconditional sampleCluster sampleModel 1 1 1 0).1,
   (C10_SetReplicas_unconditional sampleCluster sampleModel 1 1 1 0).2.1
     sampleModel (by decide)⟩

theorem getDeployment_none (st : Cluster) (ns n : String)
    (hl : lookupK (ns, ModelAppName n) st.deployments = none) :
    getDeployment st ns n = .ok none := by
  unfold getDeployment
  rw [hl]

theorem getDeployment_some (st : Cluster) (ns n : String) (d : Deployment)
    (hl : lookupK (ns, ModelAppName n) st.deployments = some (.ok d)) :
    getDeployment st ns n = .ok (some d) := by
  unfold getDeployment
  rw [hl]

theorem getService_none (st : Cluster) (ns n : String)
    (hl : lookupK (ns, ModelAppName n) st.services = none) :
    getService st ns n = .ok none := by
  unfold getService
  rw [hl]

theorem getService_some (st : Cluster) (ns n : String) (s : Service)
    (hl : lookupK (ns, ModelAppName n) st.services = some (.ok s)) :
    getService st ns n = .ok (some s) := by
  unfold getService
  rw [hl]

/-- C3: calling an ensureCreated operation (EnsureDeploymentCreated /
EnsureServiceCreated) a second time with identical parameters after a
successful first call returns the same underlying resource, issues no second
create call, leaves the state unchanged, and the creation notification (like
the create call itself) is emitted exactly by a call that found the resource
absent and therefore created it. -/
theorem C3_ensureCreated_idempotent :
    (∀ st ns n image repl m d st1 ev1,
      EnsureDeploymentCreated st ns n image repl m = (.ok d, st1, ev1) →
      EnsureDeploymentCreated st1 ns n image repl m =
        (.ok d, st1, [.callEnsureDeploymentCreated]) ∧
      (Event.createDeploymentCall ns (ModelAppName n) ∈ ev1 ↔
        lookupK (ns, ModelAppName n) st.deployments = none) ∧
      (Event.deploymentCreated (ModelAppName n) ∈ ev1 ↔
        lookupK (ns, ModelAppName n) st.deployments = none)) ∧
    (∀ st ns n dep s st1 ev1,
      EnsureServiceCreated st ns n dep = (.ok s, st1, ev1) →
      EnsureServiceCreated st1 ns n dep = (.ok s, st1, []) ∧
      (Event.createServiceCall ns (ModelAppName n) ∈ ev1 ↔
        lookupK (ns, ModelAppName n) st.services = none) ∧
      (Event.serviceCreated (ModelAppName n) ∈ ev1 ↔
        lookupK (ns, ModelAppName n) st.services = none)) := by
  constructor
  · intro st ns n image repl m d st1 ev1 h
    unfold EnsureDeploymentCreated at h
    cases hl : lookupK (ns, ModelAppName n) st.deployments with
    | none =>
      rw [getDeployment_none st ns n hl] at h
      dsimp only at h
      obtain ⟨hd, hst, hev⟩ := by
        simpa [Prod.mk.injEq] using h
      subst hst
      subst hev
      subst hd
      refine ⟨?_, by simp [hl], by simp [hl]⟩
      unfold EnsureDeploymentCreated
      rw [getDeployment_some _ ns n _ (by dsimp only; exact lookupK_setK_self _ _ _)]
    | some e =>
      cases e with
      | err =>
        rw [show getDeployment st ns n = .err by unfold getDeployment; rw [hl]] at h
        simp at h
      | ok d0 =>
        rw [getDeployment_some st ns n d0 hl] at h
        obtain ⟨hd, hst, hev⟩ := by
          simpa [Prod.mk.injEq] using h
        subst hst
        subst hev
        subst hd
        refine ⟨?_, by simp [hl], by simp [hl]⟩
        unfold EnsureDeploymentCreated
        rw [getDeployment_some st ns n d0 hl]
  · intro st ns n dep s st1 ev1 h
    unfold EnsureServiceCreated at h
    cases hl : lookupK (ns, ModelAppName n) st.services with
    | none =>
      rw [getService_none st ns n hl] at h
      dsimp only at h
      obtain ⟨hd, hst, hev⟩ := by
        simpa [Prod.mk.injEq] using h
      subst hst
      subst hev
      subst hd
      refine ⟨?_, by simp [hl], by simp [hl]⟩
      unfold EnsureServiceCreated
      rw [getService_some _ ns n _ (by dsimp only; exact lookupK_setK_self _ _ _)]
    | some e =>
      cases e with
      | err =>
        rw [show getService st ns n = .err by unfold getService; rw [hl]] at h
        simp at h
      | ok s0 =>
        rw [getService_some st ns n s0 hl] at h
        obtain ⟨hd, hst, hev⟩ := by
          simpa [Prod.mk.injEq] using h
        subst hst
        subst hev
        subst hd
        refine ⟨?_, by simp [hl], by simp [hl]⟩
        unfold EnsureServiceCreated
        rw [getService_some st ns n s0 hl]

theorem C3_ensureCreated_idempotent_witness :
    (EnsureDeploymentCreated sampleCluster "d" "x" "img" none sampleModel =
       (.ok sampleDeployment, sampleCluster, [.callEnsureDeploymentCreated]) ∧
     (Event.createDeploymentCall "d" (ModelAppName "x") ∈
        ([.callEnsureDeploymentCreated] : List Event) ↔
       lookupK ("d", ModelAppName "x") sampleCluster.deployments = none) ∧
     (Event.deploymentCreated (ModelAppName "x") ∈
        ([.callEnsureDeploymentCreated] : List Event) ↔
       lookupK ("d", ModelAppName "x") sampleCluster.deployments = none)) ∧
    (EnsureServiceCreated sampleCluster "d" "x" sampleDeployment =
       (.ok sampleService, sampleCluster, []) ∧
     (Event.createServiceCall "d" (ModelAppName "x") ∈ ([] : List Event) ↔
       lookupK ("d", ModelAppName "x") sampleCluster.services = none) ∧
     (Event.serviceCreated (ModelAppName "x") ∈ ([] : List Event) ↔
       lookupK ("d", ModelAppName "x") sampleCluster.services = none)) :=
  ⟨C3_ensureCreated_idempotent.1 sampleCluster "d" "x" "img" none sampleModel
     sampleDeployment sampleCluster [.callEnsureDeploymentCreated] (by decide),
   C3_ensureCreated_idempotent.2 sampleCluster "d" "x" sampleDeployment
     sampleService sampleCluster [] (by decide)⟩

/-- C4: the counter-update step of a reconcile pass issues a status write if
and only if at least one of the four observed counters differs from the
value stored in the Model's status, and it short-circuits into a requeue only
in that case. -/
theorem C4_counter_write_iff_diff (st : Cluster) (m : Model)
    (r1 r2 r3 r4 : Int) :
    (Event.statusWriteAttempt ∈ (counterStep st m r1 r2 r3 r4).2.2 ↔
      (m.status.replicas ≠ r1 ∨ m.status.readyReplicas ≠ r2 ∨
        m.status.availableReplicas ≠ r3 ∨ m.status.unavailableReplicas ≠ r4)) ∧
    ((counterStep st m r1 r2 r3 r4).1 = .requeueOut →
      (m.status.replicas ≠ r1 ∨ m.status.readyReplicas ≠ r2 ∨
        m.status.availableReplicas ≠ r3 ∨ m.status.unavailableReplicas ≠ r4)) := by
  unfold counterStep
  split
  · next hg =>
    have hd : m.status.replicas ≠ r1 ∨ m.status.readyReplicas ≠ r2 ∨
        m.status.availableReplicas ≠ r3 ∨ m.status.unavailableReplicas ≠ r4 := by
      simpa [ShouldSetReplicas, Bool.or_eq_true, decide_eq_true_eq, or_assoc] using hg
    have hev : (SetReplicas st m r1 r2 r3 r4).2.2 = [Event.statusWriteAttempt] :=
      SetReplicas_events st m r1 r2 r3 r4
    rcases h3 : SetReplicas st m r1 r2 r3 r4 with ⟨r, stx, evx⟩
    rw [h3] at hev
    simp only at hev
    subst hev
    cases r with
    | err => exact ⟨by simp [hd], fun _ => hd⟩
    | ok b => cases b <;> simp [hd]
  · next hg =>
    have hd : ¬ (m.status.replicas ≠ r1 ∨ m.status.readyReplicas ≠ r2 ∨
        m.status.availableReplicas ≠ r3 ∨ m.status.unavailableReplicas ≠ r4) := by
      simpa [ShouldSetReplicas, Bool.or_eq_true, decide_eq_true_eq, or_assoc] using hg
    simp [hd]

theorem C4_counter_write_iff_diff_witness :
    Event.statusWriteAttempt ∈ (counterStep sampleCluster sampleModel 9 1 1 0).2.2 ∧
    Event.statusWriteAttempt ∉ (counterStep sampleCluster sampleModel 1 1 1 0).2.2 :=
  ⟨(C4_counter_write_iff_diff sampleCluster sampleModel 9 1 1 0).1.mpr
     (by decide),
   fun hmem =>
     (by decide :
       ¬ (sampleModel.status.replicas ≠ 1 ∨ sampleModel.status.readyReplicas ≠ 1 ∨
         sampleModel.status.availableReplicas ≠ 1 ∨
         sampleModel.status.unavailableReplicas ≠ 0))
     ((C4_counter_write_iff_diff sampleCluster sampleModel 1 1 1 0).1.mp hmem)⟩

/- The cluster of sampleCluster with the owning Model deleted: the state a
pass observes after fetching sampleModel when the Model object is removed
between the fetch and the later steps. -/
def clusterModelGone : Cluster :=
  { sampleCluster with models := [] }

/-- C6 counterexample: the claim also demands that removal of the owning
resource between the fetch and any later step behaves as a successful no-op
pass; on the code it does not. Concretely, for a Model that still needs its
Progressing condition, the post-fetch body run against a store from which the
Model has been removed fails the Progressing status write and returns an
error (not a success) to the scheduler. -/
theorem C6_midpass_deletion_errors :
    lookupK ("d", "x") clusterModelGone.models = none ∧
    (reconcileFetched clusterModelGone sampleModel "d" "x" 0).1 = .errO := by
  decide

/-- C6 (amended): a not-found on the initial fetch is treated as
already-deleted success — the pass returns no error, leaves the store
untouched and emits nothing; but removal of the owning resource between the
fetch and a later step is NOT ignored: a pass that still needs the
Progressing status write fails that write and surfaces the error to the
scheduler (only the initial fetch applies IgnoreNotFound). -/
theorem C6_notfound_fetch_noop :
    (∀ st ns n now, lookupK (ns, n) st.models = none →
      Reconcile st ns n now = (.doneO, st, [])) ∧
    (∀ st m ns n now, lookupK (m.ns, m.name) st.models = none →
      IsAvailable m = false → IsProgressing m = false →
      (reconcileFetched st m ns n now).1 = .errO) := by
  constructor
  · intro st ns n now h
    unfold Reconcile
    rw [h]
  · intro st m ns n now h hA hP
    unfold reconcileFetched
    rw [hA]
    dsimp only
    rw [SetProgressing_eq, hP]
    rw [if_neg (show ¬(false = true) by simp)]
    have hsu : statusUpdate st (setConds m [progressingCondition now]) =
        (.err, st, [.statusWriteAttempt]) := by
      unfold statusUpdate
      dsimp only [setConds]
      rw [h]
    rw [hsu]
    rfl

theorem C6_notfound_fetch_noop_witness :
    Reconcile emptyCluster "d" "x" 0 = (.doneO, emptyCluster, []) ∧
    (reconcileFetched clusterModelGone sampleModel "d" "x" 1).1 = .errO :=
  ⟨C6_notfound_fetch_noop.1 emptyCluster "d" "x" 0 rfl,
   C6_notfound_fetch_noop.2 clusterModelGone sampleModel "d" "x" 1
     (by decide) (by decide) (by decide)⟩

theorem mem_EnsureImageStorePVCCreated {st : Cluster} {ns : String}
    {a b c : Option String} {r : Res PVC} {stx : Cluster} {ev : List Event}
    (heq : EnsureImageStorePVCCreated st ns a b c = (r, stx, ev)) {e : Event}
    (he : e ∈ ev) : e = Event.imageStorePVCCreated ns := by
  unfold EnsureImageStorePVCCreated at heq
  split at heq <;>
    ((try dsimp only at heq)
     simp only [Prod.mk.injEq] at heq
     obtain ⟨hr, hstx, hev⟩ := heq
     subst hev
     simp_all)

theorem mem_EnsureImageStoreStatefulSetCreated {st : Cluster} {ns : String}
    {r : Res StatefulSet} {stx : Cluster} {ev : List Event}
    (heq : EnsureImageStoreStatefulSetCreated st ns = (r, stx, ev)) {e : Event}
    (he : e ∈ ev) : e = Event.imageStoreStatefulSetCreated ns := by
  unfold EnsureImageStoreStatefulSetCreated at heq
  split at heq <;>
    ((try dsimp only at heq)
     simp only [Prod.mk.injEq] at heq
     obtain ⟨hr, hstx, hev⟩ := heq
     subst hev
     simp_all)

theorem mem_EnsureImageStoreServiceCreated {st : Cluster} {ns : String}
    {o : StatefulSet} {r : Res ImageStoreService} {stx : Cluster}
    {ev : List Event}
    (heq : EnsureImageStoreServiceCreated st ns o = (r, stx, ev)) {e : Event}
    (he : e ∈ ev) : e = Event.imageStoreServiceCreated ns := by
  unfold EnsureImageStoreServiceCreated at heq
  split at heq <;>
    ((try dsimp only at heq)
     simp only [Prod.mk.injEq] at heq
     obtain ⟨hr, hstx, hev⟩ := heq
     subst hev
     simp_all)

theorem mem_IsImageStoreStatefulSetReady {st : Cluster} {ns : String}
    {r : Res Bool} {stx : Cluster} {ev : List Event}
    (heq : IsImageStoreStatefulSetReady st ns = (r, stx, ev)) {e : Event}
    (he : e ∈ ev) :
    (r = .ok true ∧ e = Event.ssReadyReturned true) ∨
    (r = .ok false ∧ (e = Event.ssReadyReturned false ∨
      e = Event.waitingForImageStoreStatefulSet ns)) := by
  unfold IsImageStoreStatefulSetReady at heq
  dsimp only at heq
  split at heq
  · simp only [Prod.mk.injEq] at heq
    obtain ⟨hr, hstx, hev⟩ := heq
    subst hev
    simp_all
  · simp only [Prod.mk.injEq] at heq
    obtain ⟨hr, hstx, hev⟩ := heq
    subst hev
    subst hr
    simp_all
  · split at heq <;>
      (simp only [Prod.mk.injEq] at heq
       obtain ⟨hr, hstx, hev⟩ := heq
       subst hev
       subst hr
       simp_all)

theorem mem_IsImageStoreServiceReady {st : Cluster} {ns : String}
    {r : Res Bool} {stx : Cluster} {ev : List Event}
    (heq : IsImageStoreServiceReady st ns = (r, stx, ev)) {e : Event}
    (he : e ∈ ev) :
    (r = .ok true ∧ e = Event.storeSvcReadyReturned true) ∨
    (r = .ok false ∧ (e = Event.storeSvcReadyReturned false ∨
      e = Event.waitingForImageStoreService ns)) := by
  unfold IsImageStoreServiceReady at heq
  try dsimp only at heq
  split at heq
  · simp only [Prod.mk.injEq] at heq
    obtain ⟨hr, hstx, hev⟩ := heq
    subst hev
    simp_all
  · simp only [Prod.mk.injEq] at heq
    obtain ⟨hr, hstx, hev⟩ := heq
    subst hev
    subst hr
    simp_all
  · split at heq <;>
      (simp only [Prod.mk.injEq] at heq
       obtain ⟨hr, hstx, hev⟩ := heq
       subst hev
       subst hr
       simp_all)

theorem mem_EnsureDeploymentCreated {st : Cluster} {ns n image : String}
    {repl : Option Int} {m : Model} {r : Res Deployment} {stx : Cluster}
    {ev : List Event}
    (heq : EnsureDeploymentCreated st ns n image repl m = (r, stx, ev))
    {e : Event} (he : e ∈ ev) :
    e = Event.callEnsureDeploymentCreated ∨
    e = Event.createDeploymentCall ns (ModelAppName n) ∨
    e = Event.deploymentCreated (ModelAppName n) := by
  unfold EnsureDeploymentCreated at heq
  split at heq <;>
    ((try dsimp only at heq)
     simp only [Prod.mk.injEq] at heq
     obtain ⟨hr, hstx, hev⟩ := heq
     subst hev
     simp_all)

theorem mem_UpdateDeployment {st : Cluster} {m : Model} {r : Res Bool}
    {stx : Cluster} {ev : List Event}
    (heq : UpdateDeployment st m = (r, stx, ev)) {e : Event} (he : e ∈ ev) :
    ∃ a b, e = Event.modelScaled a b := by
  unfold UpdateDeployment at heq
  dsimp only at heq
  repeat' split at heq
  all_goals
    (simp only [Prod.mk.injEq] at heq
     obtain ⟨hr, hstx, hev⟩ := heq
     subst hev
     simp_all)

theorem mem_IsDeploymentReady {st : Cluster} {ns n : String} {r : Res Bool}
    {stx : Cluster} {ev : List Event}
    (heq : IsDeploymentReady st ns n = (r, stx, ev)) {e : Event}
    (he : e ∈ ev) : ∃ nm, e = Event.waitingForDeployment nm := by
  unfold IsDeploymentReady at heq
  dsimp only at heq
  repeat' split at heq
  all_goals
    (simp only [Prod.mk.injEq] at heq
     obtain ⟨hr, hstx, hev⟩ := heq
     subst hev
     simp_all)

theorem mem_EnsureServiceCreated {st : Cluster} {ns n : String}
    {dep : Deployment} {r : Res Service} {stx : Cluster} {ev : List Event}
    (heq : EnsureServiceCreated st ns n dep = (r, stx, ev)) {e : Event}
    (he : e ∈ ev) :
    e = Event.createServiceCall ns (ModelAppName n) ∨
    e = Event.serviceCreated (ModelAppName n) := by
  unfold EnsureServiceCreated at heq
  split at heq <;>
    ((try dsimp only at heq)
     simp only [Prod.mk.injEq] at heq
     obtain ⟨hr, hstx, hev⟩ := heq
     subst hev
     simp_all)

theorem mem_IsServiceReady {st : Cluster} {ns n : String} {r : Res Bool}
    {stx : Cluster} {ev : List Event}
    (heq : IsServiceReady st ns n = (r, stx, ev)) {e : Event} (he : e ∈ ev) :
    ∃ nm, e = Event.waitingForService nm := by
  unfold IsServiceReady at heq
  try dsimp only at heq
  repeat' split at heq
  all_goals
    (simp only [Prod.mk.injEq] at heq
     obtain ⟨hr, hstx, hev⟩ := heq
     subst hev
     simp_all)

theorem mem_SetProgressing {st : Cluster} {m : Model} {now : Nat}
    {r : Res Bool} {stx : Cluster} {ev : List Event}
    (heq : SetProgressing st m now = (r, stx, ev)) {e : Event} (he : e ∈ ev) :
    e = Event.statusWriteAttempt := by
  rw [SetProgressing_eq] at heq
  split at heq
  · simp only [Prod.mk.injEq] at heq
    obtain ⟨hr, hstx, hev⟩ := heq
    subst hev
    simp_all
  · rcases h3 : statusUpdate st (setConds m [progressingCondition now]) with ⟨r0, st0, ev0⟩
    rw [h3] at heq
    have hev0 := statusUpdate_events st (setConds m [progressingCondition now])
    rw [h3] at hev0
    simp only at hev0
    subst hev0
    cases r0 <;>
      (simp only [Prod.mk.injEq] at heq
       obtain ⟨hr, hstx, hev⟩ := heq
       subst hev
       simp_all)

theorem mem_SetAvailable {st : Cluster} {m : Model} {now : Nat}
    {r : Res Bool} {stx : Cluster} {ev : List Event}
    (heq : SetAvailable st m now = (r, stx, ev)) {e : Event} (he : e ∈ ev) :
    e = Event.statusWriteAttempt := by
  rw [SetAvailable_eq] at heq
  split at heq
  · simp only [Prod.mk.injEq] at heq
    obtain ⟨hr, hstx, hev⟩ := heq
    subst hev
    simp_all
  · rcases h3 : statusUpdate st (setConds m [availableCondition now]) with ⟨r0, st0, ev0⟩
    rw [h3] at heq
    have hev0 := statusUpdate_events st (setConds m [availableCondition now])
    rw [h3] at hev0
    simp only at hev0
    subst hev0
    cases r0 <;>
      (simp only [Prod.mk.injEq] at heq
       obtain ⟨hr, hstx, hev⟩ := heq
       subst hev
       simp_all)

theorem mem_counterStep {st : Cluster} {m : Model} {r1 r2 r3 r4 : Int}
    {o : StepOut} {stx : Cluster} {ev : List Event}
    (heq : counterStep st m r1 r2 r3 r4 = (o, stx, ev)) {e : Event}
    (he : e ∈ ev) : e = Event.statusWriteAttempt := by
  unfold counterStep at heq
  split at heq
  · rcases h3 : SetReplicas st m r1 r2 r3 r4 with ⟨r0, st0, ev0⟩
    rw [h3] at heq
    have hev0 := SetReplicas_events st m r1 r2 r3 r4
    rw [h3] at hev0
    simp only at hev0
    subst hev0
    cases r0 with
    | err =>
      dsimp only at heq
      simp only [Prod.mk.injEq] at heq
      obtain ⟨hr, hstx, hev⟩ := heq
      subst hev
      simp_all
    | ok b =>
      dsimp only at heq
      split at heq <;>
        (simp only [Prod.mk.injEq] at heq
         obtain ⟨hr, hstx, hev⟩ := heq
         subst hev
         simp_all)
  · simp only [Prod.mk.injEq] at heq
    obtain ⟨hr, hstx, hev⟩ := heq
    subst hev
    simp_all

/- Proof-side event-trace predicates: a list with no deployment-ensure call
marker, and a list with no "readiness returned false" marker. -/
def noCall (l : List Event) : Prop :=
  ∀ e ∈ l, e ≠ Event.callEnsureDeploymentCreated

def noFalseL (l : List Event) : Prop :=
  ∀ e ∈ l, e ≠ Event.ssReadyReturned false ∧ e ≠ Event.storeSvcReadyReturned false

theorem noCall_append {l1 l2 : List Event} (h1 : noCall l1) (h2 : noCall l2) :
    noCall (l1 ++ l2) := by
  intro e he
  rcases List.mem_append.mp he with h | h
  · exact h1 e h
  · exact h2 e h

theorem noFalseL_append {l1 l2 : List Event} (h1 : noFalseL l1)
    (h2 : noFalseL l2) : noFalseL (l1 ++ l2) := by
  intro e he
  rcases List.mem_append.mp he with h | h
  · exact h1 e h
  · exact h2 e h

theorem noFalseL_elim {L : List Event} (hL : noFalseL L)
    (h : Event.ssReadyReturned false ∈ L ∨
      Event.storeSvcReadyReturned false ∈ L) {C : Prop} : C := by
  rcases h with h | h
  · exact ((hL _ h).1 rfl).elim
  · exact ((hL _ h).2 rfl).elim

theorem benign_EnsureImageStorePVCCreated {st : Cluster} {ns : String}
    {a b c : Option String} {r : Res PVC} {stx : Cluster} {ev : List Event}
    (heq : EnsureImageStorePVCCreated st ns a b c = (r, stx, ev)) :
    noCall ev ∧ noFalseL ev := by
  constructor <;> intro e he <;>
    (have h := mem_EnsureImageStorePVCCreated heq he
     subst h)
  · simp
  · exact ⟨by simp, by simp⟩

theorem benign_EnsureImageStoreStatefulSetCreated {st : Cluster} {ns : String}
    {r : Res StatefulSet} {stx : Cluster} {ev : List Event}
    (heq : EnsureImageStoreStatefulSetCreated st ns = (r, stx, ev)) :
    noCall ev ∧ noFalseL ev := by
  constructor <;> intro e he <;>
    (have h := mem_EnsureImageStoreStatefulSetCreated heq he
     subst h)
  · simp
  · exact ⟨by simp, by simp⟩

theorem benign_EnsureImageStoreServiceCreated {st : Cluster} {ns : String}
    {o : StatefulSet} {r : Res ImageStoreService} {stx : Cluster}
    {ev : List Event}
    (heq : EnsureImageStoreServiceCreated st ns o = (r, stx, ev)) :
    noCall ev ∧ noFalseL ev := by
  constructor <;> intro e he <;>
    (have h := mem_EnsureImageStoreServiceCreated heq he
     subst h)
  · simp
  · exact ⟨by simp, by simp⟩

theorem noCall_IsImageStoreStatefulSetReady {st : Cluster} {ns : String}
    {r : Res Bool} {stx : Cluster} {ev : List Event}
    (heq : IsImageStoreStatefulSetReady st ns = (r, stx, ev)) : noCall ev := by
  intro e he
  rcases mem_IsImageStoreStatefulSetReady heq he with ⟨-, h⟩ | ⟨-, h | h⟩ <;>
    subst h <;> simp

theorem noFalse_IsImageStoreStatefulSetReady {st : Cluster} {ns : String}
    {r : Res Bool} {stx : Cluster} {ev : List Event}
    (heq : IsImageStoreStatefulSetReady st ns = (r, stx, ev))
    (hr : r ≠ .ok false) : noFalseL ev := by
  intro e he
  rcases mem_IsImageStoreStatefulSetReady heq he with ⟨-, h⟩ | ⟨hf, -⟩
  · subst h
    exact ⟨by simp, by simp⟩
  · exact absurd hf hr

theorem noCall_IsImageStoreServiceReady {st : Cluster} {ns : String}
    {r : Res Bool} {stx : Cluster} {ev : List Event}
    (heq : IsImageStoreServiceReady st ns = (r, stx, ev)) : noCall ev := by
  intro e he
  rcases mem_IsImageStoreServiceReady heq he with ⟨-, h⟩ | ⟨-, h | h⟩ <;>
    subst h <;> simp

theorem noFalse_IsImageStoreServiceReady {st : Cluster} {ns : String}
    {r : Res Bool} {stx : Cluster} {ev : List Event}
    (heq : IsImageStoreServiceReady st ns = (r, stx, ev))
    (hr : r ≠ .ok false) : noFalseL ev := by
  intro e he
  rcases mem_IsImageStoreServiceReady heq he with ⟨-, h⟩ | ⟨hf, -⟩
  · subst h
    exact ⟨by simp, by simp⟩
  · exact absurd hf hr

theorem benign_SetProgressing {st : Cluster} {m : Model} {now : Nat}
    {r : Res Bool} {stx : Cluster} {ev : List Event}
    (heq : SetProgressing st m now = (r, stx, ev)) :
    noCall ev ∧ noFalseL ev := by
  constructor <;> intro e he <;>
    (have h := mem_SetProgressing heq he
     subst h)
  · simp
  · exact ⟨by simp, by simp⟩

theorem noFalse_EnsureDeploymentCreated {st : Cluster} {ns n image : String}
    {repl : Option Int} {m : Model} {r : Res Deployment} {stx : Cluster}
    {ev : List Event}
    (heq : EnsureDeploymentCreated st ns n image repl m = (r, stx, ev)) :
    noFalseL ev := by
  intro e he
  rcases mem_EnsureDeploymentCreated heq he with h | h | h <;> subst h <;>
    exact ⟨by simp, by simp⟩

theorem noFalse_UpdateDeployment {st : Cluster} {m : Model} {r : Res Bool}
    {stx : Cluster} {ev : List Event}
    (heq : UpdateDeployment st m = (r, stx, ev)) : noFalseL ev := by
  intro e he
  obtain ⟨a, b, h⟩ := mem_UpdateDeployment heq he
  subst h
  exact ⟨by simp, by simp⟩

theorem noFalse_IsDeploymentReady {st : Cluster} {ns n : String}
    {r : Res Bool} {stx : Cluster} {ev : List Event}
    (heq : IsDeploymentReady st ns n = (r, stx, ev)) : noFalseL ev := by
  intro e he
  obtain ⟨nm, h⟩ := mem_IsDeploymentReady heq he
  subst h
  exact ⟨by simp, by simp⟩

theorem noFalse_EnsureServiceCreated {st : Cluster} {ns n : String}
    {dep : Deployment} {r : Res Service} {stx : Cluster} {ev : List Event}
    (heq : EnsureServiceCreated st ns n dep = (r, stx, ev)) : noFalseL ev := by
  intro e he
  rcases mem_EnsureServiceCreated heq he with h | h <;> subst h <;>
    exact ⟨by simp, by simp⟩

theorem noFalse_IsServiceReady {st : Cluster} {ns n : String} {r : Res Bool}
    {stx : Cluster} {ev : List Event}
    (heq : IsServiceReady st ns n = (r, stx, ev)) : noFalseL ev := by
  intro e he
  obtain ⟨nm, h⟩ := mem_IsServiceReady heq he
  subst h
  exact ⟨by simp, by simp⟩

theorem noFalse_counterStep {st : Cluster} {m : Model} {r1 r2 r3 r4 : Int}
    {o : StepOut} {stx : Cluster} {ev : List Event}
    (heq : counterStep st m r1 r2 r3 r4 = (o, stx, ev)) : noFalseL ev := by
  intro e he
  have h := mem_counterStep heq he
  subst h
  exact ⟨by simp, by simp⟩

theorem noFalse_SetAvailable {st : Cluster} {m : Model} {now : Nat}
    {r : Res Bool} {stx : Cluster} {ev : List Event}
    (heq : SetAvailable st m now = (r, stx, ev)) : noFalseL ev := by
  intro e he
  have h := mem_SetAvailable heq he
  subst h
  exact ⟨by simp, by simp⟩

theorem noFalse_modelAvailable : noFalseL [Event.modelAvailable] := by
  intro e he
  simp at he
  subst he
  exact ⟨by simp, by simp⟩

theorem noFalse_modelProgressing : noFalseL [Event.modelProgressing] := by
  intro e he
  simp at he
  subst he
  exact ⟨by simp, by simp⟩

theorem noFalse_deployStage {st : Cluster} {m : Model} {ns n : String}
    {now : Nat} {o : Outcome} {stx : Cluster} {ev : List Event}
    (heq : deployStage st m ns n now = (o, stx, ev)) : noFalseL ev := by
  unfold deployStage at heq
  rcases h1 : EnsureDeploymentCreated st ns n m.spec.image m.spec.replicas m
    with ⟨r1, st1, ev1⟩
  rw [h1] at heq
  have hb1 := noFalse_EnsureDeploymentCreated h1
  cases r1 with
  | err =>
    simp only [Prod.mk.injEq] at heq
    obtain ⟨-, -, hev⟩ := heq
    subst hev
    exact hb1
  | ok deployment =>
    dsimp only at heq
    rcases h2 : UpdateDeployment st1 m with ⟨r2, st2, ev2⟩
    rw [h2] at heq
    have hb2 := noFalse_UpdateDeployment h2
    cases r2 with
    | err =>
      simp only [Prod.mk.injEq] at heq
      obtain ⟨-, -, hev⟩ := heq
      subst hev
      exact noFalseL_append hb1 hb2
    | ok updated =>
      dsimp only at heq
      split at heq
      · simp only [Prod.mk.injEq] at heq
        obtain ⟨-, -, hev⟩ := heq
        subst hev
        exact noFalseL_append hb1 hb2
      · rcases h3 : IsDeploymentReady st2 ns n with ⟨r3, st3, ev3⟩
        rw [h3] at heq
        have hb3 := noFalse_IsDeploymentReady h3
        cases r3 with
        | err =>
          simp only [Prod.mk.injEq] at heq
          obtain ⟨-, -, hev⟩ := heq
          subst hev
          exact noFalseL_append (noFalseL_append hb1 hb2) hb3
        | ok ready =>
          dsimp only at heq
          split at heq
          · simp only [Prod.mk.injEq] at heq
            obtain ⟨-, -, hev⟩ := heq
            subst hev
            exact noFalseL_append (noFalseL_append hb1 hb2) hb3
          · rcases h4 : EnsureServiceCreated st3 ns n deployment
              with ⟨r4, st4, ev4⟩
            rw [h4] at heq
            have hb4 := noFalse_EnsureServiceCreated h4
            cases r4 with
            | err =>
              simp only [Prod.mk.injEq] at heq
              obtain ⟨-, -, hev⟩ := heq
              subst hev
              exact noFalseL_append (noFalseL_append (noFalseL_append hb1 hb2) hb3) hb4
            | ok svc =>
              dsimp only at heq
              rcases h5 : IsServiceReady st4 ns n with ⟨r5, st5, ev5⟩
              rw [h5] at heq
              have hb5 := noFalse_IsServiceReady h5
              cases r5 with
              | err =>
                simp only [Prod.mk.injEq] at heq
                obtain ⟨-, -, hev⟩ := heq
                subst hev
                exact noFalseL_append (noFalseL_append (noFalseL_append (noFalseL_append hb1 hb2) hb3) hb4) hb5
              | ok svcReady =>
                dsimp only at heq
                split at heq
                · simp only [Prod.mk.injEq] at heq
                  obtain ⟨-, -, hev⟩ := heq
                  subst hev
                  exact noFalseL_append (noFalseL_append (noFalseL_append (noFalseL_append hb1 hb2) hb3) hb4) hb5
                · rcases h6 : counterStep st5 m deployment.statusReplicas
                      deployment.statusReadyReplicas
                      deployment.statusAvailableReplicas
                      deployment.statusUnavailableReplicas
                    with ⟨o6, st6, ev6⟩
                  rw [h6] at heq
                  have hb6 := noFalse_counterStep h6
                  cases o6 with
                  | errOut =>
                    simp only [Prod.mk.injEq] at heq
                    obtain ⟨-, -, hev⟩ := heq
                    subst hev
                    exact noFalseL_append (noFalseL_append (noFalseL_append (noFalseL_append (noFalseL_append hb1 hb2) hb3) hb4) hb5) hb6
                  | requeueOut =>
                    simp only [Prod.mk.injEq] at heq
                    obtain ⟨-, -, hev⟩ := heq
                    subst hev
                    exact noFalseL_append (noFalseL_append (noFalseL_append (noFalseL_append (noFalseL_append hb1 hb2) hb3) hb4) hb5) hb6
                  | continueOut =>
                    dsimp only at heq
                    rcases h7 : SetAvailable st6 m now with ⟨r7, st7, ev7⟩
                    rw [h7] at heq
                    have hb7 := noFalse_SetAvailable h7
                    cases r7 with
                    | err =>
                      simp only [Prod.mk.injEq] at heq
                      obtain ⟨-, -, hev⟩ := heq
                      subst hev
                      exact noFalseL_append (noFalseL_append (noFalseL_append (noFalseL_append (noFalseL_append (noFalseL_append hb1 hb2) hb3) hb4) hb5) hb6) hb7
                    | ok hasSet =>
                      simp only [Prod.mk.injEq] at heq
                      obtain ⟨-, -, hev⟩ := heq
                      subst hev
                      exact noFalseL_append (noFalseL_append (noFalseL_append (noFalseL_append (noFalseL_append (noFalseL_append (noFalseL_append hb1 hb2) hb3) hb4) hb5) hb6) hb7) noFalse_modelAvailable

theorem C5core {st : Cluster} {m : Model} {ns n : String} {now : Nat}
    {o : Outcome} {st' : Cluster} {ev : List Event}
    (hR : reconcileStages st m ns n now = (o, st', ev))
    (h : Event.ssReadyReturned false ∈ ev ∨
      Event.storeSvcReadyReturned false ∈ ev) :
    noCall ev ∧ o = .requeueO 5 := by
  unfold reconcileStages at hR
  rcases h1 : EnsureImageStorePVCCreated st ns m.spec.storageClassName
      m.spec.persistentVolumeClaim m.spec.persistentVolume with ⟨r1, st1, ev1⟩
  rw [h1] at hR
  obtain ⟨hc1, hf1⟩ := benign_EnsureImageStorePVCCreated h1
  cases r1 with
  | err =>
    simp only [Prod.mk.injEq] at hR
    obtain ⟨-, -, hev⟩ := hR
    subst hev
    exact noFalseL_elim hf1 h
  | ok p =>
    dsimp only at hR
    rcases h2 : EnsureImageStoreStatefulSetCreated st1 ns with ⟨r2, st2, ev2⟩
    rw [h2] at hR
    obtain ⟨hc2, hf2⟩ := benign_EnsureImageStoreStatefulSetCreated h2
    cases r2 with
    | err =>
      simp only [Prod.mk.injEq] at hR
      obtain ⟨-, -, hev⟩ := hR
      subst hev
      exact noFalseL_elim (noFalseL_append hf1 hf2) h
    | ok statefulSet =>
      dsimp only at hR
      rcases h3 : IsImageStoreStatefulSetReady st2 ns with ⟨r3, st3, ev3⟩
      rw [h3] at hR
      have hc3 := noCall_IsImageStoreStatefulSetReady h3
      cases r3 with
      | err =>
        simp only [Prod.mk.injEq] at hR
        obtain ⟨-, -, hev⟩ := hR
        subst hev
        exact noFalseL_elim (noFalseL_append (noFalseL_append hf1 hf2)
          (noFalse_IsImageStoreStatefulSetReady h3 (by simp))) h
      | ok ssReady =>
        dsimp only at hR
        split at hR
        · simp only [Prod.mk.injEq] at hR
          obtain ⟨ho, -, hev⟩ := hR
          subst hev
          exact ⟨noCall_append (noCall_append hc1 hc2) hc3, ho.symm⟩
        · next hcond =>
          have hssT : ssReady = true := by
            simpa using hcond
          subst hssT
          have hf3 : noFalseL ev3 :=
            noFalse_IsImageStoreStatefulSetReady h3 (by simp)
          rcases h4 : EnsureImageStoreServiceCreated st3 ns statefulSet
            with ⟨r4, st4, ev4⟩
          rw [h4] at hR
          obtain ⟨hc4, hf4⟩ := benign_EnsureImageStoreServiceCreated h4
          cases r4 with
          | err =>
            simp only [Prod.mk.injEq] at hR
            obtain ⟨-, -, hev⟩ := hR
            subst hev
            exact noFalseL_elim (noFalseL_append (noFalseL_append
              (noFalseL_append hf1 hf2) hf3) hf4) h
          | ok isvc =>
            dsimp only at hR
            rcases h5 : IsImageStoreServiceReady st4 ns with ⟨r5, st5, ev5⟩
            rw [h5] at hR
            have hc5 := noCall_IsImageStoreServiceReady h5
            cases r5 with
            | err =>
              simp only [Prod.mk.injEq] at hR
              obtain ⟨-, -, hev⟩ := hR
              subst hev
              exact noFalseL_elim (noFalseL_append (noFalseL_append
                (noFalseL_append (noFalseL_append hf1 hf2) hf3) hf4)
                (noFalse_IsImageStoreServiceReady h5 (by simp))) h
            | ok svcReady =>
              dsimp only at hR
              split at hR
              · simp only [Prod.mk.injEq] at hR
                obtain ⟨ho, -, hev⟩ := hR
                subst hev
                exact ⟨noCall_append (noCall_append (noCall_append
                  (noCall_append hc1 hc2) hc3) hc4) hc5, ho.symm⟩
              · next hcond5 =>
                have hsvT : svcReady = true := by
                  simpa using hcond5
                subst hsvT
                have hf5 : noFalseL ev5 :=
                  noFalse_IsImageStoreServiceReady h5 (by simp)
                rcases h6 : deployStage st5 m ns n now with ⟨o6, st6, ev6⟩
                rw [h6] at hR
                dsimp only at hR
                simp only [Prod.mk.injEq] at hR
                obtain ⟨-, -, hev⟩ := hR
                subst hev
                exact noFalseL_elim (noFalseL_append (noFalseL_append
                  (noFalseL_append (noFalseL_append (noFalseL_append hf1 hf2)
                    hf3) hf4) hf5) (noFalse_deployStage h6)) h

/-- C5: the workload deployment is never created before both the image-store
stateful set and its service are ready: whenever a pass's
IsImageStoreStatefulSetReady or IsImageStoreServiceReady call returned false
(recorded by the readiness ghost markers in the trace), the pass contains no
EnsureDeploymentCreated call and returns a 5-second requeue. -/
theorem C5_stage_ordering (st : Cluster) (ns n : String) (now : Nat)
    (h : Event.ssReadyReturned false ∈ (Reconcile st ns n now).2.2 ∨
      Event.storeSvcReadyReturned false ∈ (Reconcile st ns n now).2.2) :
    Event.callEnsureDeploymentCreated ∉ (Reconcile st ns n now).2.2 ∧
    (Reconcile st ns n now).1 = .requeueO 5 := by
  rcases hR : Reconcile st ns n now with ⟨o, st', ev⟩
  rw [hR] at h
  dsimp only at h ⊢
  unfold Reconcile at hR
  split at hR
  · simp only [Prod.mk.injEq] at hR
    obtain ⟨-, -, hev⟩ := hR
    subst hev
    simp at h
  · simp only [Prod.mk.injEq] at hR
    obtain ⟨-, -, hev⟩ := hR
    subst hev
    simp at h
  · next m hm =>
    unfold reconcileFetched at hR
    split at hR
    · rcases hsp : SetProgressing st m now with ⟨rp, stp, evp⟩
      rw [hsp] at hR
      obtain ⟨hcp, hfp⟩ := benign_SetProgressing hsp
      cases rp with
      | err =>
        simp only [Prod.mk.injEq] at hR
        obtain ⟨-, -, hev⟩ := hR
        subst hev
        exact noFalseL_elim hfp h
      | ok hasSet =>
        dsimp only at hR
        split at hR
        · simp only [Prod.mk.injEq] at hR
          obtain ⟨-, -, hev⟩ := hR
          subst hev
          exact noFalseL_elim (noFalseL_append hfp noFalse_modelProgressing) h
        · rcases hst2 : reconcileStages stp m ns n now with ⟨o2, st2, ev2⟩
          rw [hst2] at hR
          dsimp only at hR
          simp only [Prod.mk.injEq] at hR
          obtain ⟨ho, -, hev⟩ := hR
          subst hev
          subst ho
          have h2 : Event.ssReadyReturned false ∈ ev2 ∨
              Event.storeSvcReadyReturned false ∈ ev2 := by
            rcases h with hx | hx
            · rcases List.mem_append.mp hx with hy | hy
              · exact ((hfp _ hy).1 rfl).elim
              · exact .inl hy
            · rcases List.mem_append.mp hx with hy | hy
              · exact ((hfp _ hy).2 rfl).elim
              · exact .inr hy
          obtain ⟨hnc2, ho2⟩ := C5core hst2 h2
          refine ⟨?_, ho2⟩
          intro hc
          rcases List.mem_append.mp hc with hy | hy
          · exact hcp _ hy rfl
          · exact hnc2 _ hy rfl
    · obtain ⟨hnc, ho⟩ := C5core hR h
      exact ⟨fun hc => hnc _ hc rfl, ho⟩

/- sampleModel with its conditions replaced by the Available singleton, and a
cluster whose image-store stateful set exists but is not yet ready. -/
def sampleModelAvailable : Model :=
  setConds sampleModel [availableCondition 0]

def clusterSSNotReady : Cluster :=
  { sampleCluster with
      models := [(("d", "x"), .ok sampleModelAvailable)],
      imageStoreStatefulSets :=
        [("d", .ok { ns := "d", specReplicas := some 1,
                     statusReadyReplicas := 0 })] }

theorem C5_stage_ordering_witness :
    Event.callEnsureDeploymentCreated ∉
      (Reconcile clusterSSNotReady "d" "x" 0).2.2 ∧
    (Reconcile clusterSSNotReady "d" "x" 0).1 = .requeueO 5 :=
  C5_stage_ordering clusterSSNotReady "d" "x" 0 (by decide)

theorem reconcileFetched_gate_skip {st : Cluster} {m : Model} {ns n : String}
    {now : Nat} (hgate : IsAvailable m = true ∨ IsProgressing m = true) :
    reconcileFetched st m ns n now = reconcileStages st m ns n now := by
  unfold reconcileFetched
  by_cases hA : IsAvailable m = true
  · rw [hA]
    rfl
  · have hP : IsProgressing m = true := hgate.resolve_left hA
    have hA2 : IsAvailable m = false := by
      simpa using hA
    rw [hA2]
    dsimp only
    rw [SetProgressing_eq, hP]
    rw [if_pos rfl]
    dsimp only
    rcases hst : reconcileStages st m ns n now with ⟨o2, st2, ev2⟩
    simp

/- Proof-side abbreviation: the cluster with one deployment entry replaced. -/
def withDeployment (st : Cluster) (k : String × String) (d : Deployment) : Cluster :=
  { st with deployments := setK k (.ok d) st.deployments }

/-- C2: for a Model whose deployment exists with declared replica count R1
while the Model spec declares R2 ≠ R1 (after the default-1 rule), a single
reconcile pass — with the image-store stages present and ready and the
progressing gate already passed — rewrites the deployment's replica count to
R2 and returns the 5-second requeue, and that same pass issues no model
status write (in particular it does not set the Available condition) and does
not emit the ModelAvailable notification. -/
theorem C2_drift_correction (st : Cluster) (ns n : String) (now : Nat)
    (m : Model) (p : PVC) (s : StatefulSet) (isvc : ImageStoreService)
    (d : Deployment) (r1 r2 : Int)
    (hm : lookupK (ns, n) st.models = some (.ok m))
    (hns : m.ns = ns) (hname : m.name = n)
    (hgate : IsAvailable m = true ∨ IsProgressing m = true)
    (hpvc : lookupK ns st.imageStorePVCs = some (.ok p))
    (hss : lookupK ns st.imageStoreStatefulSets = some (.ok s))
    (hssr : s.statusReadyReplicas = effectiveReplicas s.specReplicas)
    (hsvc : lookupK ns st.imageStoreServices = some (.ok isvc))
    (hip : isvc.clusterIP ≠ "")
    (hd : lookupK (ns, ModelAppName n) st.deployments = some (.ok d))
    (hr1 : d.specReplicas = some r1)
    (hr2 : effectiveReplicas m.spec.replicas = r2)
    (hne : r1 ≠ r2) :
    (Reconcile st ns n now).1 = .requeueO 5 ∧
    lookupK (ns, ModelAppName n) (Reconcile st ns n now).2.1.deployments =
      some (.ok { d with specReplicas := some r2 }) ∧
    (Reconcile st ns n now).2.1.models = st.models ∧
    Event.modelAvailable ∉ (Reconcile st ns n now).2.2 := by
  have e0 : Reconcile st ns n now = reconcileStages st m ns n now := by
    unfold Reconcile
    rw [hm]
    exact reconcileFetched_gate_skip hgate
  have e1 : EnsureImageStorePVCCreated st ns m.spec.storageClassName
      m.spec.persistentVolumeClaim m.spec.persistentVolume = (.ok p, st, []) := by
    unfold EnsureImageStorePVCCreated
    rw [hpvc]
  have e2 : EnsureImageStoreStatefulSetCreated st ns = (.ok s, st, []) := by
    unfold EnsureImageStoreStatefulSetCreated
    rw [hss]
  have e3 : IsImageStoreStatefulSetReady st ns =
      (.ok true, st, [.ssReadyReturned true]) := by
    have hssr2 : s.statusReadyReplicas =
        (match s.specReplicas with | none => (1 : Int) | some r => r) := hssr
    unfold IsImageStoreStatefulSetReady
    rw [hss]
    dsimp only
    rw [if_pos hssr2]
  have e4 : EnsureImageStoreServiceCreated st ns s = (.ok isvc, st, []) := by
    unfold EnsureImageStoreServiceCreated
    rw [hsvc]
  have e5 : IsImageStoreServiceReady st ns =
      (.ok true, st, [.storeSvcReadyReturned true]) := by
    unfold IsImageStoreServiceReady
    rw [hsvc]
    dsimp only
    rw [if_neg hip]
  have e6 : EnsureDeploymentCreated st ns n m.spec.image m.spec.replicas m =
      (.ok d, st, [.callEnsureDeploymentCreated]) := by
    unfold EnsureDeploymentCreated
    rw [getDeployment_some st ns n d hd]
  have hr2m : (match m.spec.replicas with | none => (1 : Int) | some r => r) = r2 := hr2
  have e7 : UpdateDeployment st m =
      (.ok true,
        withDeployment st (ns, ModelAppName n) { d with specReplicas := some r2 },
        [.modelScaled d.statusReplicas r2]) := by
    unfold UpdateDeployment withDeployment
    rw [hns, hname]
    rw [getDeployment_some st ns n d hd]
    dsimp only
    rw [hr2m, hr1]
    dsimp only
    rw [if_neg hne]
  have e8 : deployStage st m ns n now =
      (.requeueO 5,
        withDeployment st (ns, ModelAppName n) { d with specReplicas := some r2 },
        [Event.callEnsureDeploymentCreated] ++ [Event.modelScaled d.statusReplicas r2]) := by
    unfold deployStage
    rw [e6]
    dsimp only
    rw [e7]
    rfl
  have eAll : Reconcile st ns n now =
      (.requeueO 5,
        withDeployment st (ns, ModelAppName n) { d with specReplicas := some r2 },
        ([] : List Event) ++ [] ++ [Event.ssReadyReturned true] ++ [] ++
          [Event.storeSvcReadyReturned true] ++
          ([Event.callEnsureDeploymentCreated] ++
            [Event.modelScaled d.statusReplicas r2])) := by
    rw [e0]
    unfold reconcileStages
    rw [e1]
    dsimp only
    rw [e2]
    dsimp only
    rw [e3]
    dsimp only
    rw [e4]
    dsimp only
    rw [e5]
    dsimp only
    rw [e8]
    rfl
  rw [eAll]
  refine ⟨rfl, ?_, rfl, ?_⟩
  · dsimp only [withDeployment]
    exact lookupK_setK_self _ _ _
  · simp

/- A drifted copy of the sample fixtures: the live deployment declares 2
replicas while the Model spec (replicas unset) declares 1. -/
def sampleDeploymentDrift : Deployment :=
  { sampleDeployment with specReplicas := some 2 }

def clusterDrift : Cluster :=
  { sampleCluster with
      models := [(("d", "x"), .ok sampleModelAvailable)],
      deployments := [(("d", ModelAppName "x"), .ok sampleDeploymentDrift)] }

theorem C2_drift_correction_witness :
    (Reconcile clusterDrift "d" "x" 0).1 = .requeueO 5 ∧
    lookupK ("d", ModelAppName "x")
      (Reconcile clusterDrift "d" "x" 0).2.1.deployments =
      some (.ok { sampleDeploymentDrift with specReplicas := some 1 }) ∧
    (Reconcile clusterDrift "d" "x" 0).2.1.models = clusterDrift.models ∧
    Event.modelAvailable ∉ (Reconcile clusterDrift "d" "x" 0).2.2 :=
  C2_drift_correction clusterDrift "d" "x" 0 sampleModelAvailable samplePVC
    sampleStatefulSet sampleImageStoreService sampleDeploymentDrift 2 1
    (by decide) rfl rfl (.inl (by decide)) (by decide) (by decide) (by decide)
    (by decide) (by decide) (by decide) (by decide) (by decide) (by decide)

theorem SetProgressing_ok_false {st : Cluster} {m : Model} {now : Nat}
    {st1 : Cluster} {ev : List Event}
    (h : SetProgressing st m now = (.ok false, st1, ev)) : st1 = st := by
  rw [SetProgressing_eq] at h
  split at h
  · simp only [Prod.mk.injEq] at h
    exact h.2.1.symm
  · rcases h3 : statusUpdate st (setConds m [progressingCondition now]) with ⟨r0, st0, ev0⟩
    rw [h3] at h
    cases r0 <;> simp_all

theorem deployStage_conds {st : Cluster} {m : Model} {ns n : String}
    {now : Nat} {k : String × String} {m2 : Model}
    (h : lookupK k (deployStage st m ns n now).2.1.models = some (.ok m2)) :
    lookupK k st.models = some (.ok m2) ∨
    m2.status.conditions = m.status.conditions ∨
    (IsAvailable m = false ∧
      m2.status.conditions = [availableCondition now]) := by
  rcases hds : deployStage st m ns n now with ⟨o, stF, ev⟩
  rw [hds] at h
  dsimp only at h
  unfold deployStage at hds
  rcases h1 : EnsureDeploymentCreated st ns n m.spec.image m.spec.replicas m
    with ⟨r1, st1, ev1⟩
  rw [h1] at hds
  have hms1 : st1.models = st.models := by
    have hx := models_EnsureDeploymentCreated st ns n m.spec.image m.spec.replicas m
    rw [h1] at hx
    exact hx
  cases r1 with
  | err =>
    simp only [Prod.mk.injEq] at hds
    obtain ⟨-, hstF, -⟩ := hds
    subst hstF
    rw [hms1] at h
    exact .inl h
  | ok deployment =>
    dsimp only at hds
    rcases h2 : UpdateDeployment st1 m with ⟨r2, st2, ev2⟩
    rw [h2] at hds
    have hms2 : st2.models = st.models := by
      have hx := models_UpdateDeployment st1 m
      rw [h2] at hx
      rw [← hms1]
      exact hx
    cases r2 with
    | err =>
      simp only [Prod.mk.injEq] at hds
      obtain ⟨-, hstF, -⟩ := hds
      subst hstF
      rw [hms2] at h
      exact .inl h
    | ok updated =>
      dsimp only at hds
      split at hds
      · simp only [Prod.mk.injEq] at hds
        obtain ⟨-, hstF, -⟩ := hds
        subst hstF
        rw [hms2] at h
        exact .inl h
      · rcases h3 : IsDeploymentReady st2 ns n with ⟨r3, st3, ev3⟩
        rw [h3] at hds
        have hst3 : st3 = st2 := by
          have hx := state_IsDeploymentReady st2 ns n
          rw [h3] at hx
          exact hx
        cases r3 with
        | err =>
          simp only [Prod.mk.injEq] at hds
          obtain ⟨-, hstF, -⟩ := hds
          subst hstF
          rw [hst3, hms2] at h
          exact .inl h
        | ok ready =>
          dsimp only at hds
          split at hds
          · simp only [Prod.mk.injEq] at hds
            obtain ⟨-, hstF, -⟩ := hds
            subst hstF
            rw [hst3, hms2] at h
            exact .inl h
          · rcases h4 : EnsureServiceCreated st3 ns n deployment
              with ⟨r4, st4, ev4⟩
            rw [h4] at hds
            have hms4 : st4.models = st.models := by
              have hx := models_EnsureServiceCreated st3 ns n deployment
              rw [h4] at hx
              rw [hx, hst3, hms2]
            cases r4 with
            | err =>
              simp only [Prod.mk.injEq] at hds
              obtain ⟨-, hstF, -⟩ := hds
              subst hstF
              rw [hms4] at h
              exact .inl h
            | ok svc =>
              dsimp only at hds
              rcases h5 : IsServiceReady st4 ns n with ⟨r5, st5, ev5⟩
              rw [h5] at hds
              have hst5 : st5 = st4 := by
                have hx := state_IsServiceReady st4 ns n
                rw [h5] at hx
                exact hx
              cases r5 with
              | err =>
                simp only [Prod.mk.injEq] at hds
                obtain ⟨-, hstF, -⟩ := hds
                subst hstF
                rw [hst5, hms4] at h
                exact .inl h
              | ok svcReady =>
                dsimp only at hds
                split at hds
                · simp only [Prod.mk.injEq] at hds
                  obtain ⟨-, hstF, -⟩ := hds
                  subst hstF
                  rw [hst5, hms4] at h
                  exact .inl h
                · rcases h6 : counterStep st5 m deployment.statusReplicas
                      deployment.statusReadyReplicas
                      deployment.statusAvailableReplicas
                      deployment.statusUnavailableReplicas
                    with ⟨o6, st6, ev6⟩
                  rw [h6] at hds
                  have hcs : lookupK k st6.models = some (.ok m2) →
                      lookupK k st.models = some (.ok m2) ∨
                      m2.status.conditions = m.status.conditions := by
                    intro hx
                    have hy := lookupK_counterStep_models st5 m _ _ _ _ k m2
                      (by rw [h6]; exact hx)
                    rw [hst5, hms4] at hy
                    exact hy
                  cases o6 with
                  | errOut =>
                    simp only [Prod.mk.injEq] at hds
                    obtain ⟨-, hstF, -⟩ := hds
                    subst hstF
                    rcases hcs h with hy | hy
                    · exact .inl hy
                    · exact .inr (.inl hy)
                  | requeueOut =>
                    simp only [Prod.mk.injEq] at hds
                    obtain ⟨-, hstF, -⟩ := hds
                    subst hstF
                    rcases hcs h with hy | hy
                    · exact .inl hy
                    · exact .inr (.inl hy)
                  | continueOut =>
                    dsimp only at hds
                    rcases h7 : SetAvailable st6 m now with ⟨r7, st7, ev7⟩
                    rw [h7] at hds
                    have hsa : lookupK k st7.models = some (.ok m2) →
                        lookupK k st6.models = some (.ok m2) ∨
                        (IsAvailable m = false ∧
                          m2.status.conditions = [availableCondition now]) := by
                      intro hx
                      exact lookupK_SetAvailable_models st6 m now k m2
                        (by rw [h7]; exact hx)
                    cases r7 with
                    | err =>
                      simp only [Prod.mk.injEq] at hds
                      obtain ⟨-, hstF, -⟩ := hds
                      subst hstF
                      rcases hsa h with hy | hy
                      · rcases hcs hy with hz | hz
                        · exact .inl hz
                        · exact .inr (.inl hz)
                      · exact .inr (.inr hy)
                    | ok hasSet =>
                      simp only [Prod.mk.injEq] at hds
                      obtain ⟨-, hstF, -⟩ := hds
                      subst hstF
                      rcases hsa h with hy | hy
                      · rcases hcs hy with hz | hz
                        · exact .inl hz
                        · exact .inr (.inl hz)
                      · exact .inr (.inr hy)

theorem reconcileStages_conds {st : Cluster} {m : Model} {ns n : String}
    {now : Nat} {k : String × String} {m2 : Model}
    (h : lookupK k (reconcileStages st m ns n now).2.1.models = some (.ok m2)) :
    lookupK k st.models = some (.ok m2) ∨
    m2.status.conditions = m.status.conditions ∨
    (IsAvailable m = false ∧
      m2.status.conditions = [availableCondition now]) := by
  rcases hrs : reconcileStages st m ns n now with ⟨o, stF, ev⟩
  rw [hrs] at h
  dsimp only at h
  unfold reconcileStages at hrs
  rcases h1 : EnsureImageStorePVCCreated st ns m.spec.storageClassName
      m.spec.persistentVolumeClaim m.spec.persistentVolume with ⟨r1, st1, ev1⟩
  rw [h1] at hrs
  have hms1 : st1.models = st.models := by
    have hx := models_EnsureImageStorePVCCreated st ns m.spec.storageClassName
      m.spec.persistentVolumeClaim m.spec.persistentVolume
    rw [h1] at hx
    exact hx
  cases r1 with
  | err =>
    simp only [Prod.mk.injEq] at hrs
    obtain ⟨-, hstF, -⟩ := hrs
    subst hstF
    rw [hms1] at h
    exact .inl h
  | ok p =>
    dsimp only at hrs
    rcases h2 : EnsureImageStoreStatefulSetCreated st1 ns with ⟨r2, st2, ev2⟩
    rw [h2] at hrs
    have hms2 : st2.models = st.models := by
      have hx := models_EnsureImageStoreStatefulSetCreated st1 ns
      rw [h2] at hx
      rw [hx, hms1]
    cases r2 with
    | err =>
      simp only [Prod.mk.injEq] at hrs
      obtain ⟨-, hstF, -⟩ := hrs
      subst hstF
      rw [hms2] at h
      exact .inl h
    | ok statefulSet =>
      dsimp only at hrs
      rcases h3 : IsImageStoreStatefulSetReady st2 ns with ⟨r3, st3, ev3⟩
      rw [h3] at hrs
      have hst3 : st3 = st2 := by
        have hx := state_IsImageStoreStatefulSetReady st2 ns
        rw [h3] at hx
        exact hx
      cases r3 with
      | err =>
        simp only [Prod.mk.injEq] at hrs
        obtain ⟨-, hstF, -⟩ := hrs
        subst hstF
        rw [hst3, hms2] at h
        exact .inl h
      | ok ssReady =>
        dsimp only at hrs
        split at hrs
        · simp only [Prod.mk.injEq] at hrs
          obtain ⟨-, hstF, -⟩ := hrs
          subst hstF
          rw [hst3, hms2] at h
          exact .inl h
        · rcases h4 : EnsureImageStoreServiceCreated st3 ns statefulSet
            with ⟨r4, st4, ev4⟩
          rw [h4] at hrs
          have hms4 : st4.models = st.models := by
            have hx := models_EnsureImageStoreServiceCreated st3 ns statefulSet
            rw [h4] at hx
            rw [hx, hst3, hms2]
          cases r4 with
          | err =>
            simp only [Prod.mk.injEq] at hrs
            obtain ⟨-, hstF, -⟩ := hrs
            subst hstF
            rw [hms4] at h
            exact .inl h
          | ok isvc =>
            dsimp only at hrs
            rcases h5 : IsImageStoreServiceReady st4 ns with ⟨r5, st5, ev5⟩
            rw [h5] at hrs
            have hst5 : st5 = st4 := by
              have hx := state_IsImageStoreServiceReady st4 ns
              rw [h5] at hx
              exact hx
            cases r5 with
            | err =>
              simp only [Prod.mk.injEq] at hrs
              obtain ⟨-, hstF, -⟩ := hrs
              subst hstF
              rw [hst5, hms4] at h
              exact .inl h
            | ok svcReady =>
              dsimp only at hrs
              split at hrs
              · simp only [Prod.mk.injEq] at hrs
                obtain ⟨-, hstF, -⟩ := hrs
                subst hstF
                rw [hst5, hms4] at h
                exact .inl h
              · rcases h6 : deployStage st5 m ns n now with ⟨o6, st6, ev6⟩
                rw [h6] at hrs
                dsimp only at hrs
                simp only [Prod.mk.injEq] at hrs
                obtain ⟨-, hstF, -⟩ := hrs
                subst hstF
                have hy := @deployStage_conds st5 m ns n now k m2
                  (by rw [h6]; exact h)
                rw [hst5, hms4] at hy
                exact hy

theorem reconcileFetched_conds {st : Cluster} {m : Model} {ns n : String}
    {now : Nat} {k : String × String} {m2 : Model}
    (h : lookupK k (reconcileFetched st m ns n now).2.1.models = some (.ok m2)) :
    lookupK k st.models = some (.ok m2) ∨
    m2.status.conditions = m.status.conditions ∨
    (IsAvailable m = false ∧
      m2.status.conditions = [progressingCondition now]) ∨
    (IsAvailable m = false ∧
      m2.status.conditions = [availableCondition now]) := by
  rcases hrf : reconcileFetched st m ns n now with ⟨o, stF, ev⟩
  rw [hrf] at h
  dsimp only at h
  by_cases hA : IsAvailable m = true
  · rw [reconcileFetched_gate_skip (.inl hA)] at hrf
    have hy := @reconcileStages_conds st m ns n now k m2
      (by rw [hrf]; exact h)
    rcases hy with hy | hy | hy
    · exact .inl hy
    · exact .inr (.inl hy)
    · exact .inr (.inr (.inr hy))
  · have hA2 : IsAvailable m = false := by simpa using hA
    unfold reconcileFetched at hrf
    rw [hA2] at hrf
    rw [if_pos (show ((!false : Bool) = true) by simp)] at hrf
    rcases hsp : SetProgressing st m now with ⟨rp, stp, evp⟩
    rw [hsp] at hrf
    cases rp with
    | err =>
      simp only [Prod.mk.injEq] at hrf
      obtain ⟨-, hstF, -⟩ := hrf
      subst hstF
      have hy := lookupK_SetProgressing_models st m now k m2
        (by rw [hsp]; exact h)
      rcases hy with hy | hy
      · exact .inl hy
      · exact .inr (.inr (.inl ⟨hA2, hy⟩))
    | ok hasSet =>
      cases hasSet with
      | true =>
        dsimp only at hrf
        rw [if_pos rfl] at hrf
        simp only [Prod.mk.injEq] at hrf
        obtain ⟨-, hstF, -⟩ := hrf
        subst hstF
        have hy := lookupK_SetProgressing_models st m now k m2
          (by rw [hsp]; exact h)
        rcases hy with hy | hy
        · exact .inl hy
        · exact .inr (.inr (.inl ⟨hA2, hy⟩))
      | false =>
        dsimp only at hrf
        rw [if_neg (show ¬((false : Bool) = true) by simp)] at hrf
        have hstp : stp = st := SetProgressing_ok_false hsp
        rw [hstp] at hrf
        rcases hst2 : reconcileStages st m ns n now with ⟨o2, st2, ev2⟩
        rw [hst2] at hrf
        dsimp only at hrf
        simp only [Prod.mk.injEq] at hrf
        obtain ⟨-, hstF, -⟩ := hrf
        subst hstF
        have hy := @reconcileStages_conds st m ns n now k m2
          (by rw [hst2]; exact h)
        rcases hy with hy | hy | hy
        · exact .inl hy
        · exact .inr (.inl hy)
        · exact .inr (.inr (.inr hy))

/- The Model currently stored for a key, when the slot holds a live object. -/
def fetchedModel (st : Cluster) (ns n : String) : Option Model :=
  match lookupK (ns, n) st.models with
  | some (.ok m) => some m
  | _ => none

/-- C1 counterexample: conditions are not monotonic as claimed. Starting from
a fully ready cluster whose Model has no conditions, pass 1 sets the
Progressing condition (so it "has been set" by a reconcile pass), but pass 2
— the pass that completes convergence — replaces the entire conditions list
with the singleton Available condition, so the later pass clears Progressing
from the status conditions list. -/
theorem C1_progressing_cleared_counterexample :
    (fetchedModel sampleCluster "d" "x").map IsProgressing = some false ∧
    (fetchedModel (Reconcile sampleCluster "d" "x" 0).2.1 "d" "x").map
      IsProgressing = some true ∧
    (fetchedModel
        (Reconcile (Reconcile sampleCluster "d" "x" 0).2.1 "d" "x" 1).2.1
        "d" "x").map IsProgressing = some false ∧
    (fetchedModel
        (Reconcile (Reconcile sampleCluster "d" "x" 0).2.1 "d" "x" 1).2.1
        "d" "x").map IsAvailable = some true := by
  decide

/-- C1 (amended): once the Available condition is set, no later pass clears
or duplicates it — a pass on a Model already Available leaves its conditions
list unchanged; and every conditions list a pass writes is a one-element list
(so each condition type appears at most once in any list written by the
controller). The Progressing condition, however, is only kept until the pass
that sets Available, which replaces the whole list with the singleton
Available condition: after any pass the stored conditions list is either
unchanged, the singleton Progressing, or the singleton Available. -/
theorem C1_conditions_discipline (st : Cluster) (ns n : String) (now : Nat)
    (m m' : Model)
    (hm : lookupK (ns, n) st.models = some (.ok m))
    (hm' : lookupK (ns, n) (Reconcile st ns n now).2.1.models = some (.ok m')) :
    (IsAvailable m = true → m'.status.conditions = m.status.conditions) ∧
    (IsAvailable m = true → IsAvailable m' = true) ∧
    (m'.status.conditions = m.status.conditions ∨
      m'.status.conditions = [progressingCondition now] ∨
      m'.status.conditions = [availableCondition now]) := by
  have hrec : Reconcile st ns n now = reconcileFetched st m ns n now := by
    unfold Reconcile
    rw [hm]
  rw [hrec] at hm'
  have hy := @reconcileFetched_conds st m ns n now (ns, n) m' hm'
  have hconds : m'.status.conditions = m.status.conditions ∨
      (IsAvailable m = false ∧
        m'.status.conditions = [progressingCondition now]) ∨
      (IsAvailable m = false ∧
        m'.status.conditions = [availableCondition now]) := by
    rcases hy with hy | hy | hy | hy
    · rw [hm] at hy
      injection hy with hy2
      injection hy2 with hy3
      rw [hy3]
      exact .inl rfl
    · exact .inl hy
    · exact .inr (.inl hy)
    · exact .inr (.inr hy)
  have hEqOfAvail : IsAvailable m = true →
      m'.status.conditions = m.status.conditions := by
    intro hA
    rcases hconds with hc | ⟨hf, -⟩ | ⟨hf, -⟩
    · exact hc
    · rw [hA] at hf
      exact absurd hf (by simp)
    · rw [hA] at hf
      exact absurd hf (by simp)
  refine ⟨hEqOfAvail, ?_, ?_⟩
  · intro hA
    have hc := hEqOfAvail hA
    unfold IsAvailable
    rw [hc]
    exact hA
  · rcases hconds with hc | ⟨-, hc⟩ | ⟨-, hc⟩
    · exact .inl hc
    · exact .inr (.inl hc)
    · exact .inr (.inr hc)

/- sampleCluster with the Model marked Available: a later pass must keep the
Available condition and leave the conditions list unchanged. -/
def clusterAvailable : Cluster :=
  { sampleCluster with models := [(("d", "x"), .ok sampleModelAvailable)] }

theorem C1_conditions_discipline_witness :
    (IsAvailable sampleModelAvailable = true →
      sampleModelAvailable.status.conditions =
        sampleModelAvailable.status.conditions) ∧
    (IsAvailable sampleModelAvailable = true →
      IsAvailable sampleModelAvailable = true) ∧
    (sampleModelAvailable.status.conditions =
        sampleModelAvailable.status.conditions ∨
      sampleModelAvailable.status.conditions = [progressingCondition 5] ∨
      sampleModelAvailable.status.conditions = [availableCondition 5]) :=
  C1_conditions_discipline clusterAvailable "d" "x" 5 sampleModelAvailable
    sampleModelAvailable (by decide) (by decide)

end OllamaOp
